import Mathlib

/-!
Verification of `agent_service` (workspace tools, agent task loop glue, and the
protocol runtime) against its natural-language specification.

The Python sources are shallowly embedded:
* the on-disk project tree becomes an association list from resolved absolute
  paths (component lists) to file contents;
* `pathlib` path joining/resolution and the `os.path.commonpath` containment
  check become pure functions on component lists;
* fallible code returns `Except String`;
* the session/run tables of `AgentProtocolRuntime` become a record of lists of
  records, with the runtime's operations as an inductive step relation.

Directories, symlinks and byte-level file encodings are outside the model: the
filesystem holds UTF-8 text files only, which is the only case the tools
themselves handle (`read_text(encoding="utf-8")` everywhere).
-/

namespace AgentService

/-! ## Python string primitives -/

/-- Whitespace characters removed by Python's `str.strip()` (ASCII subset,
which covers every string the tools construct). -/
def isPyWs (c : Char) : Bool :=
  c = ' ' || c = '\t' || c = '\n' || c = '\r' || c = Char.ofNat 11 || c = Char.ofNat 12

/-- Python `str.strip()`. -/
def pyStrip (s : String) : String :=
  String.mk (((s.data.dropWhile isPyWs).reverse.dropWhile isPyWs).reverse)

/-- `s.startswith(pre)`. -/
def strStartsWith (s pre : String) : Bool :=
  pre.data.isPrefixOf s.data

/-- `s[:n]` (character count, like Python slicing). -/
def strTake (s : String) (n : Nat) : String :=
  String.mk (s.data.take n)

/-- `str.lower()` (ASCII case folding, all the code needs). -/
def strLower (s : String) : String :=
  String.mk (s.data.map Char.toLower)

/-- `sep.join(parts)`. -/
def strJoin (sep : String) : List String → String
  | [] => ""
  | [x] => x
  | x :: xs => x ++ sep ++ strJoin sep xs

/-- Code-point lexicographic order, Python string `<`. -/
def lexLt : List Char → List Char → Bool
  | [], [] => false
  | [], _ :: _ => true
  | _ :: _, [] => false
  | a :: as, b :: bs =>
    if a.toNat < b.toNat then true
    else if b.toNat < a.toNat then false
    else lexLt as bs

def strLt (a b : String) : Bool :=
  lexLt a.data b.data

/-- UTF-8 byte length of one character. -/
def charUtf8Len (c : Char) : Nat :=
  if c.toNat < 128 then 1
  else if c.toNat < 2048 then 2
  else if c.toNat < 65536 then 3
  else 4

/-- `len(s.encode("utf-8"))`. -/
def utf8Len (s : String) : Nat :=
  s.data.foldl (fun n c => n + charUtf8Len c) 0

/-- One step of splitting a character list at `'/'`. -/
def splitSlashAux : List Char → List Char → List String
  | [], acc => [String.mk acc.reverse]
  | c :: rest, acc =>
    if c = '/' then String.mk acc.reverse :: splitSlashAux rest []
    else splitSlashAux rest (c :: acc)

/-- Split a raw path string on `'/'` (the separator handling of
`PurePosixPath`); pieces never contain `'/'`. -/
def splitSlash (s : String) : List String :=
  splitSlashAux s.data []

end AgentService

deriving instance DecidableEq for Except

namespace AgentService

/-! ## Paths and the sandboxed filesystem -/

/-- A resolved absolute path, as its list of components (the embedding of a
fully `resolve()`d `pathlib.Path`). -/
abbrev AbsPath := List String

/-- `pathlib` normalization and `Path.resolve()` for a nonexistent target:
empty and `"."` components vanish, `".."` pops (popping at the filesystem
root stays at the root), and a `clean` path starting with `'/'` discards
`root` exactly as `Path.__truediv__` does for absolute right operands. -/
def joinResolve (root : AbsPath) (clean : String) : AbsPath :=
  let comps := (splitSlash clean).filter (fun c => c ≠ "" && c ≠ ".")
  let start := if strStartsWith clean "/" then [] else root
  comps.foldl (fun acc c => if c = ".." then acc.dropLast else acc ++ [c]) start

/-- `WorkspaceTools._resolve_path`: strip, default to `"."`, join to the
project root, resolve, and require `os.path.commonpath([root, candidate]) ==
root` — i.e. the root is a component-wise prefix of the candidate. -/
def resolve_path (root : AbsPath) (raw_path : String) : Except String AbsPath :=
  let clean := if pyStrip raw_path = "" then "." else pyStrip raw_path
  let candidate := joinResolve root clean
  if root.isPrefixOf candidate then .ok candidate
  else .error "Path escapes project root"

/-- `candidate.relative_to(project_root).as_posix()`: the components after the
root, joined with `'/'`; `"."` when the candidate is the root itself. -/
def relPosix (root candidate : AbsPath) : String :=
  let rest := candidate.drop root.length
  if rest = [] then "." else strJoin "/" rest

/-- The project tree: resolved absolute path ↦ UTF-8 file content. -/
abbrev Fs := List (AbsPath × String)

/-- Content of the file at `k`, if it exists. -/
def fsGet (fs : Fs) (k : AbsPath) : Option String :=
  (fs.find? (fun e => e.1 = k)).map (·.2)

/-- `file_path.write_text(content)`: overwrite in place or append a new file. -/
def fsSet (fs : Fs) (k : AbsPath) (v : String) : Fs :=
  if (fs.find? (fun e => e.1 = k)).isSome then
    fs.map (fun e => if e.1 = k then (k, v) else e)
  else fs ++ [(k, v)]

/-- `file_path.unlink()`. -/
def fsDel (fs : Fs) (k : AbsPath) : Fs :=
  fs.filter (fun e => e.1 ≠ k)

end AgentService

namespace AgentService

/-! ## Unified diffs and tool results -/

/-- `str.splitlines(keepends=True)` restricted to `'\n'` line endings. -/
def splitLinesKeepAux : List Char → List Char → List String
  | [], acc => if acc = [] then [] else [String.mk acc.reverse]
  | c :: rest, acc =>
    if c = '\n' then String.mk (c :: acc).reverse :: splitLinesKeepAux rest []
    else splitLinesKeepAux rest (c :: acc)

def splitLinesKeep (s : String) : List String :=
  splitLinesKeepAux s.data []

/-- `_build_unified_diff`: empty for equal sides, otherwise difflib-style
`---`/`+++` headers (with the `/dev/null` sentinel for a missing side)
followed by the changed lines.  The hunk body abstracts
`difflib.SequenceMatcher` into a whole-file replacement; the development only
relies on the headers and on emptiness being equivalent to `before == after`. -/
def build_unified_diff (before after relative_path : String)
    (before_exists after_exists : Bool) : String :=
  if before = after then ""
  else
    let from_name := if before_exists then "a/" ++ relative_path else "/dev/null"
    let to_name := if after_exists then "b/" ++ relative_path else "/dev/null"
    let body :=
      (splitLinesKeep before).map (fun l => "-" ++ l) ++
      (splitLinesKeep after).map (fun l => "+" ++ l)
    strJoin "\n" (("--- " ++ from_name) :: ("+++ " ++ to_name) :: body)

/-- The `apply_args` dictionaries returned by the preview tools — exactly the
keyword arguments of the corresponding mutating call. -/
inductive ApplyArgs where
  | writeArgs (path content : String) (allow_overwrite : Bool)
  | replaceArgs (path find repl : String) (count : Nat)
  | deleteArgs (path : String)
deriving DecidableEq, Repr

/-- One match row of `search_in_files`. -/
structure SearchMatch where
  path : String
  line : Nat
  text : String
deriving DecidableEq, Repr

/-- The result dictionary a workspace tool returns; absent keys are `none`. -/
structure ToolOutcome where
  path : Option String := none
  changed : Option Bool := none
  applied : Option Bool := none
  operation : Option String := none
  created : Option Bool := none
  deleted : Option Bool := none
  bytes : Option Nat := none
  occurrences : Option Nat := none
  replaced : Option Nat := none
  truncated : Option Bool := none
  total_chars : Option Nat := none
  content : Option String := none
  diff : Option String := none
  apply_args : Option ApplyArgs := none
  files : Option (List String) := none
  matchRows : Option (List SearchMatch) := none
  files_scanned : Option Nat := none
deriving DecidableEq, Repr

end AgentService

namespace AgentService

/-! ## WorkspaceTools: mutating tools and their previews -/

/-- Error message of the overwrite guard in `write_file`/`preview_write_file`. -/
def overwriteGuardMsg : String :=
  "Refusing full overwrite of existing non-empty file. " ++
  "Use replace_in_file for targeted edits or set allow_overwrite=true."

/-- `WorkspaceTools.write_file`: resolve, guard against silently overwriting a
non-empty differing file, then write and report `changed=True, applied=True`. -/
def write_file (fs : Fs) (root : AbsPath) (path content : String)
    (allow_overwrite : Bool) : Except String (Fs × ToolOutcome) :=
  match resolve_path root path with
  | .error e => .error e
  | .ok key =>
    let existed := (fsGet fs key).isSome
    let before := (fsGet fs key).getD ""
    if existed && before ≠ "" && before ≠ content && !allow_overwrite then
      .error overwriteGuardMsg
    else
      .ok (fsSet fs key content,
        { path := some (relPosix root key)
          changed := some true
          applied := some true
          operation := some "write_file"
          created := some (!existed)
          bytes := some (utf8Len content) })

/-- `WorkspaceTools.preview_write_file`: same guard, no filesystem change, plus
the unified diff and the `apply_args` for the identical later mutation. -/
def preview_write_file (fs : Fs) (root : AbsPath) (path content : String)
    (allow_overwrite : Bool) : Except String ToolOutcome :=
  match resolve_path root path with
  | .error e => .error e
  | .ok key =>
    let existed := (fsGet fs key).isSome
    let before := (fsGet fs key).getD ""
    if existed && before ≠ "" && before ≠ content && !allow_overwrite then
      .error overwriteGuardMsg
    else
      let relative := relPosix root key
      .ok
        { path := some relative
          changed := some (before ≠ content)
          applied := some false
          operation := some "write_file"
          created := some (!existed)
          bytes := some (utf8Len content)
          diff := some (build_unified_diff before content relative existed true)
          apply_args := some (.writeArgs relative content allow_overwrite) }

/-- Non-overlapping left-to-right occurrence count / bounded replacement, the
semantics of Python `str.count` and `str.replace`; `budget = none` replaces
all occurrences.  `fuel` bounds recursion and is instantiated with the text
length, which suffices because each step consumes at least one character. -/
def pyReplaceAux (fuel : Nat) (s find repl : List Char) (budget : Option Nat) :
    List Char :=
  match fuel with
  | 0 => s
  | fuel + 1 =>
    match s with
    | [] => []
    | c :: rest =>
      if find ≠ [] && find.isPrefixOf s && budget ≠ some 0 then
        repl ++ pyReplaceAux fuel (s.drop find.length) find repl
          (budget.map (fun b => b - 1))
      else c :: pyReplaceAux fuel rest find repl budget

/-- Python `original.replace(find, repl)` (`count = none`) or
`original.replace(find, repl, count)`. -/
def pyReplace (s find repl : String) (count : Option Nat) : String :=
  String.mk (pyReplaceAux s.data.length s.data find.data repl.data count)

def pyCountAux (fuel : Nat) (s find : List Char) : Nat :=
  match fuel with
  | 0 => 0
  | fuel + 1 =>
    match s with
    | [] => 0
    | _ :: rest =>
      if find ≠ [] && find.isPrefixOf s then
        1 + pyCountAux fuel (s.drop find.length) find
      else pyCountAux fuel rest find

/-- Python `original.count(find)` (non-overlapping). -/
def pyCount (s find : String) : Nat :=
  pyCountAux s.data.length s.data find.data

/-- `WorkspaceTools.replace_in_file`. -/
def replace_in_file (fs : Fs) (root : AbsPath) (path find repl : String)
    (count : Nat) : Except String (Fs × ToolOutcome) :=
  if find = "" then .error "find must not be empty"
  else
    match resolve_path root path with
    | .error e => .error e
    | .ok key =>
      match fsGet fs key with
      | none => .error ("File not found: " ++ path)
      | some original =>
        let occurrences := pyCount original find
        if occurrences = 0 then
          .ok (fs,
            { path := some (relPosix root key)
              changed := some false
              occurrences := some 0
              replaced := some 0 })
        else
          let updated :=
            if count = 0 then pyReplace original find repl none
            else pyReplace original find repl (some count)
          let replaced := if count = 0 then occurrences else min occurrences count
          .ok (fsSet fs key updated,
            { path := some (relPosix root key)
              changed := some true
              applied := some true
              operation := some "replace_in_file"
              occurrences := some occurrences
              replaced := some replaced })

/-- `WorkspaceTools.preview_replace_in_file`. -/
def preview_replace_in_file (fs : Fs) (root : AbsPath) (path find repl : String)
    (count : Nat) : Except String ToolOutcome :=
  if find = "" then .error "find must not be empty"
  else
    match resolve_path root path with
    | .error e => .error e
    | .ok key =>
      match fsGet fs key with
      | none => .error ("File not found: " ++ path)
      | some original =>
        let occurrences := pyCount original find
        let updated :=
          if occurrences = 0 then original
          else if count = 0 then pyReplace original find repl none
          else pyReplace original find repl (some count)
        let replaced :=
          if occurrences = 0 then 0
          else if count = 0 then occurrences else min occurrences count
        let relative := relPosix root key
        .ok
          { path := some relative
            changed := some (decide (occurrences ≠ 0) && decide (updated ≠ original))
            applied := some false
            operation := some "replace_in_file"
            occurrences := some occurrences
            replaced := some replaced
            diff := some (build_unified_diff original updated relative true true)
            apply_args := some (.replaceArgs relative find repl count) }

/-- `WorkspaceTools.delete_file`. -/
def delete_file (fs : Fs) (root : AbsPath) (path : String) :
    Except String (Fs × ToolOutcome) :=
  match resolve_path root path with
  | .error e => .error e
  | .ok key =>
    match fsGet fs key with
    | none => .error ("File not found: " ++ path)
    | some _ =>
      .ok (fsDel fs key,
        { path := some (relPosix root key)
          changed := some true
          applied := some true
          operation := some "delete_file"
          deleted := some true })

/-- `WorkspaceTools.preview_delete_file`. -/
def preview_delete_file (fs : Fs) (root : AbsPath) (path : String) :
    Except String ToolOutcome :=
  match resolve_path root path with
  | .error e => .error e
  | .ok key =>
    match fsGet fs key with
    | none => .error ("File not found: " ++ path)
    | some before =>
      let relative := relPosix root key
      .ok
        { path := some relative
          changed := some true
          applied := some false
          operation := some "delete_file"
          deleted := some true
          diff := some (build_unified_diff before "" relative true false)
          apply_args := some (.deleteArgs relative) }

end AgentService

namespace AgentService

/-! ## JSON values and Python argument coercions -/

/-- A JSON value, the embedding of the `Any`-typed dictionaries that travel
through the tool layer.  JSON floats are outside the model (no tool argument
or parsed action in this development uses one). -/
inductive JVal where
  | jnull
  | jbool (b : Bool)
  | jnum (n : Int)
  | jstr (s : String)
  | jarr (items : List JVal)
  | jobj (fields : List (String × JVal))
deriving Repr, Inhabited

/-- Python truthiness of a JSON value. -/
def pyTruthy : JVal → Bool
  | .jnull => false
  | .jbool b => b
  | .jnum n => n ≠ 0
  | .jstr s => s ≠ ""
  | .jarr items => !items.isEmpty
  | .jobj fields => !fields.isEmpty

/-- Python `str()` of a JSON value.  Container reprs are abstracted (no code
path in this development stringifies a list or dict). -/
def pyStr : JVal → String
  | .jnull => "None"
  | .jbool true => "True"
  | .jbool false => "False"
  | .jnum n => toString n
  | .jstr s => s
  | .jarr _ => "[...]"
  | .jobj _ => "\x7b...\x7d"

/-- `dict.get(k)` on a JSON object (`None` on anything else). -/
def jget (v : JVal) (k : String) : Option JVal :=
  match v with
  | .jobj fields => (fields.find? (fun e => e.1 = k)).map (·.2)
  | _ => none

/-- `args.get(k)` on a tool-argument dictionary. -/
def argGet (args : List (String × JVal)) (k : String) : Option JVal :=
  (args.find? (fun e => e.1 = k)).map (·.2)

/-- `"k" in args`. -/
def argHas (args : List (String × JVal)) (k : String) : Bool :=
  (args.find? (fun e => e.1 = k)).isSome

/-- `str(value or "")`. -/
def strOrEmpty (v : Option JVal) : String :=
  match v with
  | none => ""
  | some x => if pyTruthy x then pyStr x else ""

/-- `workspace_tools._required_str`. -/
def requiredStr (v : Option JVal) (field_name : String) : Except String String :=
  let text := pyStrip (strOrEmpty v)
  if text = "" then .error (field_name ++ " is required") else .ok text

/-- `workspace_tools._optional_str`. -/
def optionalStr (v : Option JVal) : Option String :=
  match v with
  | none => none
  | some x =>
    let text := pyStrip (pyStr x)
    if text = "" then none else some text

/-- `workspace_tools._as_str`. -/
def asStr (v : Option JVal) (default : String) : String :=
  match v with
  | none => default
  | some x =>
    let text := pyStrip (pyStr x)
    if text = "" then default else text

/-- Python `int(s)` on a string: optional sign around a nonempty digit run,
surrounding whitespace allowed. -/
def parseIntStr (s : String) : Option Int :=
  let t := (pyStrip s).data
  let neg := t.headD ' ' = '-'
  let core := if neg || t.headD ' ' = '+' then t.tail else t
  if core = [] || !core.all (fun c => '0' ≤ c && c ≤ '9') then none
  else
    let mag : Int := Int.ofNat (core.foldl (fun n c => n * 10 + (c.toNat - 48)) 0)
    some (if neg then -mag else mag)

/-- Python `int(value)` for the value kinds a tool argument can hold. -/
def pyToInt : JVal → Option Int
  | .jnum n => some n
  | .jbool b => some (if b then 1 else 0)
  | .jstr s => parseIntStr s
  | _ => none

/-- `workspace_tools._as_int`: `None`/`""` mean the default, unparsable values
raise, out-of-range values clamp. -/
def asInt (v : Option JVal) (default minimum maximum : Int) : Except String Int :=
  match v with
  | none => .ok default
  | some .jnull => .ok default
  | some (.jstr "") => .ok default
  | some x =>
    match pyToInt x with
    | none => .error "Expected integer argument"
    | some resolved =>
      .ok (if resolved < minimum then minimum
           else if resolved > maximum then maximum else resolved)

/-- `workspace_tools._required_replace`. -/
def requiredReplace (args : List (String × JVal)) : Except String String :=
  match argGet args "replace" with
  | none => .error "replace is required"
  | some .jnull => .error "replace is required"
  | some v => .ok (pyStr v)

/-- `bool(args.get(k, default))`. -/
def boolArg (args : List (String × JVal)) (k : String) (default : Bool) : Bool :=
  match argGet args k with
  | none => default
  | some v => pyTruthy v

end AgentService

namespace AgentService

/-! ## WorkspaceTools: read-only tools -/

/-- `WorkspaceTools._IGNORED_DIR_NAMES`. -/
def ignoredDirNames : List String :=
  [".agent-service", ".git", ".mypy_cache", ".pytest_cache", ".ruff_cache",
   ".venv", "__pycache__", "build", "dist", "node_modules"]

/-- `Path.exists()`: a file sits at the path, or the path is a directory,
i.e. a proper prefix of some file's path (the root always exists). -/
def pathExists (fs : Fs) (key : AbsPath) (root : AbsPath) : Bool :=
  key = root || fs.any (fun e => e.1 = key || key.isPrefixOf e.1)

/-- Substring containment, Python's `sub in s` (empty substring matches). -/
def containsSubAux (sub : List Char) : List Char → Bool
  | [] => sub.isEmpty
  | c :: rest => sub.isPrefixOf (c :: rest) || containsSubAux sub rest

def pyContains (s sub : String) : Bool :=
  containsSubAux sub.data s.data

/-- `fnmatch` character-class matching with `a-z` ranges. -/
def classMatch : List Char → Char → Bool
  | lo :: '-' :: hi :: rest, c =>
    (lo ≤ c && c ≤ hi) || classMatch rest c
  | x :: rest, c => x = c || classMatch rest c
  | [], _ => false

/-- Splits `[...]` class contents at the closing bracket; `none` when the
bracket never closes (then `fnmatch` treats `'['` as a literal). -/
def takeClass : List Char → Option (List Char × List Char)
  | [] => none
  | ']' :: rest => some ([], rest)
  | c :: rest =>
    match takeClass rest with
    | none => none
    | some (cls, remainder) => some (c :: cls, remainder)

/-- `fnmatch.fnmatch(s, pattern)` on POSIX (no case folding): `*`, `?` and
`[...]` classes with optional `!` negation. -/
def globMatchAux (fuel : Nat) (p s : List Char) : Bool :=
  match fuel with
  | 0 => false
  | fuel + 1 =>
    match p with
    | [] => s.isEmpty
    | '*' :: ps => globMatchAux fuel ps s ||
        (match s with
         | [] => false
         | _ :: srest => globMatchAux fuel ('*' :: ps) srest)
    | '?' :: ps =>
      match s with
      | [] => false
      | _ :: srest => globMatchAux fuel ps srest
    | '[' :: prest =>
      match takeClass prest with
      | some (cls, ps) =>
        match s with
        | [] => false
        | c :: srest =>
          let hit :=
            match cls with
            | '!' :: body => !classMatch body c
            | body => classMatch body c
          hit && globMatchAux fuel ps srest
      | none =>
        match s with
        | [] => false
        | c :: srest => c = '[' && globMatchAux fuel prest srest
    | x :: ps =>
      match s with
      | [] => false
      | c :: srest => c = x && globMatchAux fuel ps srest

def globMatch (pattern s : String) : Bool :=
  globMatchAux (pattern.length + s.length + 1) pattern.data s.data

/-- `WorkspaceTools._matches_glob`: empty pattern matches everything,
otherwise try the relative path, then the basename. -/
def matches_glob (relative filename glob_value : String) : Bool :=
  let pattern := pyStrip glob_value
  if pattern = "" then true
  else globMatch pattern relative || globMatch pattern filename

/-- `WorkspaceTools._iter_files` rooted at `base`: files at or below `base`,
skipping the ignored directory names (pruned only as directories strictly
between `base` and the file) and `.DS_Store` files.  The walk order is the
order of the `Fs` association list (`os.walk` order is OS-defined). -/
def iterFiles (fs : Fs) (base : AbsPath) : List (AbsPath × String) :=
  fs.filter (fun e =>
    base.isPrefixOf e.1 &&
    ((e.1.drop base.length).dropLast.all (fun d => !ignoredDirNames.contains d)) &&
    !(strStartsWith (e.1.getLastD "") ".DS_Store"))

/-- Insert into an ascending list, Python `sorted` order. -/
def insertSorted (x : String) : List String → List String
  | [] => [x]
  | y :: ys => if strLt y x then y :: insertSorted x ys else x :: y :: ys

/-- Python `sorted` on strings (code-point order). -/
def sortStrings : List String → List String
  | [] => []
  | x :: xs => insertSorted x (sortStrings xs)

/-- `WorkspaceTools.list_files`. -/
def list_files (fs : Fs) (root : AbsPath) (path : String)
    (glob_value : Option String) (limit : Nat) : Except String ToolOutcome :=
  match resolve_path root path with
  | .error e => .error e
  | .ok base =>
    if !pathExists fs base root then .error ("Path does not exist: " ++ path)
    else if (fsGet fs base).isSome then
      let relative := relPosix root base
      let keep :=
        match glob_value with
        | some g => matches_glob relative (base.getLastD "") g
        | none => true
      .ok { files := some (if keep then [relative] else []) }
    else
      let rows := (iterFiles fs base).filterMap (fun e =>
        let relative := relPosix root e.1
        match glob_value with
        | some g =>
          if matches_glob relative (e.1.getLastD "") g then some relative else none
        | none => some relative)
      .ok { files := some (sortStrings (rows.take limit)) }

/-- `WorkspaceTools.read_file`. -/
def read_file (fs : Fs) (root : AbsPath) (path : String) (max_chars : Nat) :
    Except String ToolOutcome :=
  match resolve_path root path with
  | .error e => .error e
  | .ok key =>
    match fsGet fs key with
    | none => .error ("File not found: " ++ path)
    | some text =>
      let total_chars := text.length
      let truncated := total_chars > max_chars
      .ok
        { path := some (relPosix root key)
          content := some (if truncated then strTake text max_chars else text)
          truncated := some truncated
          total_chars := some total_chars }

/-- Python `str.splitlines()` restricted to `'\n'`. -/
def splitLinesAux : List Char → List Char → List String
  | [], acc => if acc = [] then [] else [String.mk acc.reverse]
  | c :: rest, acc =>
    if c = '\n' then String.mk acc.reverse :: splitLinesAux rest []
    else splitLinesAux rest (c :: acc)

def splitLines (s : String) : List String :=
  splitLinesAux s.data []

/-- The line loop of `search_in_files` for one file: append matches until the
limit is reached, reporting whether the limit fired. -/
def searchLines (relative query_value : String) (ignore_case : Bool)
    (room : Nat) (lines : List (Nat × String)) : List SearchMatch × Bool :=
  match lines with
  | [] => ([], false)
  | (line_no, raw_line) :: rest =>
    let haystack := if ignore_case then strLower raw_line else raw_line
    if pyContains haystack query_value then
      let row : SearchMatch :=
        { path := relative, line := line_no, text := strTake raw_line 500 }
      if room ≤ 1 then ([row], true)
      else
        let (more, hit) := searchLines relative query_value ignore_case (room - 1) rest
        (row :: more, hit)
    else searchLines relative query_value ignore_case room rest

/-- The file loop of `search_in_files`. -/
def searchFiles (root : AbsPath) (query_value : String) (glob_value : Option String)
    (ignore_case : Bool) (room : Nat) :
    List (AbsPath × String) → List SearchMatch × Nat × Bool
  | [] => ([], 0, false)
  | (key, content) :: rest =>
    let relative := relPosix root key
    let keep :=
      match glob_value with
      | some g => matches_glob relative (key.getLastD "") g
      | none => true
    if !keep then searchFiles root query_value glob_value ignore_case room rest
    else
      let lines := (splitLines content).enum.map (fun e => (e.1 + 1, e.2))
      let (rows, hit) := searchLines relative query_value ignore_case room lines
      if hit then (rows, 1, true)
      else
        let (more, scanned, hitLater) :=
          searchFiles root query_value glob_value ignore_case (room - rows.length) rest
        (rows ++ more, scanned + 1, hitLater)

/-- `WorkspaceTools.search_in_files`. -/
def search_in_files (fs : Fs) (root : AbsPath) (query path : String)
    (glob_value : Option String) (limit : Nat) (ignore_case : Bool) :
    Except String ToolOutcome :=
  match resolve_path root path with
  | .error e => .error e
  | .ok base =>
    if !pathExists fs base root then .error ("Path does not exist: " ++ path)
    else
      let query_value := if ignore_case then strLower query else query
      let (rows, scanned, truncated) :=
        searchFiles root query_value glob_value ignore_case limit (iterFiles fs base)
      .ok { matchRows := some rows, files_scanned := some scanned,
            truncated := some truncated }

end AgentService

namespace AgentService

/-! ## WorkspaceTools.execute -/

/-- `WorkspaceTools.execute`: coerce arguments, dispatch to the tool, routing
mutating tools through their preview variant when `auto_apply` is false.
Read-only and preview branches return the filesystem unchanged. -/
def execute (fs : Fs) (root : AbsPath) (name : String)
    (args : List (String × JVal)) (auto_apply : Bool) :
    Except String (Fs × ToolOutcome) :=
  if name = "list_files" then
    let path := asStr (argGet args "path") "."
    let glob_value := optionalStr (argGet args "glob")
    match asInt (argGet args "limit") 200 1 1000 with
    | .error e => .error e
    | .ok limit =>
      match list_files fs root path glob_value limit.toNat with
      | .error e => .error e
      | .ok o => .ok (fs, o)
  else if name = "read_file" then
    match requiredStr (argGet args "path") "path" with
    | .error e => .error e
    | .ok path =>
      match asInt (argGet args "max_chars") 50000 1 500000 with
      | .error e => .error e
      | .ok max_chars =>
        match read_file fs root path max_chars.toNat with
        | .error e => .error e
        | .ok o => .ok (fs, o)
  else if name = "search_in_files" then
    match requiredStr (argGet args "query") "query" with
    | .error e => .error e
    | .ok query =>
      let path := asStr (argGet args "path") "."
      let glob_value := optionalStr (argGet args "glob")
      match asInt (argGet args "limit") 100 1 5000 with
      | .error e => .error e
      | .ok limit =>
        let ignore_case := boolArg args "ignore_case" true
        match search_in_files fs root query path glob_value limit.toNat ignore_case with
        | .error e => .error e
        | .ok o => .ok (fs, o)
  else if name = "write_file" then
    match requiredStr (argGet args "path") "path" with
    | .error e => .error e
    | .ok path =>
      match requiredStr (argGet args "content") "content" with
      | .error e => .error e
      | .ok content =>
        let allow_overwrite := boolArg args "allow_overwrite" false
        if !auto_apply then
          match preview_write_file fs root path content allow_overwrite with
          | .error e => .error e
          | .ok o => .ok (fs, o)
        else write_file fs root path content allow_overwrite
  else if name = "replace_in_file" then
    match requiredStr (argGet args "path") "path" with
    | .error e => .error e
    | .ok path =>
      match requiredStr (argGet args "find") "find" with
      | .error e => .error e
      | .ok find =>
        match requiredReplace args with
        | .error e => .error e
        | .ok repl =>
          match asInt (argGet args "count") 0 0 1000000 with
          | .error e => .error e
          | .ok count =>
            if !auto_apply then
              match preview_replace_in_file fs root path find repl count.toNat with
              | .error e => .error e
              | .ok o => .ok (fs, o)
            else replace_in_file fs root path find repl count.toNat
  else if name = "delete_file" then
    match requiredStr (argGet args "path") "path" with
    | .error e => .error e
    | .ok path =>
      if !auto_apply then
        match preview_delete_file fs root path with
        | .error e => .error e
        | .ok o => .ok (fs, o)
      else delete_file fs root path
  else .error ("Unknown tool: " ++ name)

/-- The project tree after an `execute` call; a raised `WorkspaceToolError`
leaves the tree as it was. -/
def executeFsAfter (fs : Fs) (root : AbsPath) (name : String)
    (args : List (String × JVal)) (auto_apply : Bool) : Fs :=
  match execute fs root name args auto_apply with
  | .ok (fs', _) => fs'
  | .error _ => fs

end AgentService

namespace AgentService

/-! ## service.py: tool-call plumbing of the agent task loop -/

/-- `_TOOL_NAME_ALIASES.get(name, name)`. -/
def toolNameAlias (n : String) : String :=
  if n = "create_file" || n = "append_file" then "write_file" else n

/-- `_MUTATING_TOOL_NAMES` (service.py). -/
def mutatingToolNames : List String :=
  ["write_file", "replace_in_file", "delete_file"]

/-- `_MUTATING_TOOLS` (protocol_runtime.py). -/
def mutatingTools : List String :=
  ["write_file", "replace_in_file", "append_to_file", "delete_file"]

/-- A non-`None` string-valued, non-blank field, stripped
(`isinstance(v, str) and v.strip()`). -/
def strFieldStripped (v : Option JVal) : Option String :=
  match v with
  | some (.jstr n) => if pyStrip n = "" then none else some (pyStrip n)
  | _ => none

/-- `AgentRuntime._extract_tool_name`. -/
def extract_tool_name (tool_call : JVal) : String :=
  let fromFunction :=
    match jget tool_call "function" with
    | some fb =>
      match fb with
      | .jobj _ => strFieldStripped (jget fb "name")
      | _ => none
    | none => none
  match fromFunction with
  | some n => n
  | none => (strFieldStripped (jget tool_call "name")).getD ""

/-- Whether a JSON value is a dict. -/
def isJObj : JVal → Bool
  | .jobj _ => true
  | _ => false

end AgentService

namespace AgentService

/-! ## A JSON decoder (the embedding of `json.loads`) -/

def jsonSkipWs (cs : List Char) : List Char :=
  cs.dropWhile (fun c => c = ' ' || c = '\t' || c = '\n' || c = '\r')

/-- JSON string body after the opening quote; supports the standard escapes
(`\u` escapes are folded to their code point). -/
def jsonParseStringAux : List Char → List Char → Option (String × List Char)
  | [], _ => none
  | c :: rest, acc =>
    if c = '"' then some (String.mk acc.reverse, rest)
    else if c = '\\' then
      match rest with
      | [] => none
      | e :: rest2 =>
        if e = 'n' then jsonParseStringAux rest2 ('\n' :: acc)
        else if e = 't' then jsonParseStringAux rest2 ('\t' :: acc)
        else if e = 'r' then jsonParseStringAux rest2 ('\r' :: acc)
        else if e = 'b' then jsonParseStringAux rest2 (Char.ofNat 8 :: acc)
        else if e = 'f' then jsonParseStringAux rest2 (Char.ofNat 12 :: acc)
        else if e = 'u' then
          match rest2 with
          | h1 :: h2 :: h3 :: h4 :: rest3 =>
            let hex := fun (c : Char) =>
              if '0' ≤ c && c ≤ '9' then some (c.toNat - 48)
              else if 'a' ≤ c && c ≤ 'f' then some (c.toNat - 87)
              else if 'A' ≤ c && c ≤ 'F' then some (c.toNat - 55)
              else none
            match hex h1, hex h2, hex h3, hex h4 with
            | some a, some b, some c3, some d =>
              jsonParseStringAux rest3 (Char.ofNat (((a * 16 + b) * 16 + c3) * 16 + d) :: acc)
            | _, _, _, _ => none
          | _ => none
        else if e = '"' || e = '\\' || e = '/' then jsonParseStringAux rest2 (e :: acc)
        else none
    else jsonParseStringAux rest (c :: acc)

mutual

/-- One JSON value (integer numbers only — no tool argument in this
development is a float). -/
def jsonParseVal (fuel : Nat) (cs : List Char) : Option (JVal × List Char) :=
  match fuel with
  | 0 => none
  | fuel + 1 =>
    match jsonSkipWs cs with
    | [] => none
    | c :: rest =>
      if c = 'n' then
        if "ull".data.isPrefixOf rest then some (.jnull, rest.drop 3) else none
      else if c = 't' then
        if "rue".data.isPrefixOf rest then some (.jbool true, rest.drop 3) else none
      else if c = 'f' then
        if "alse".data.isPrefixOf rest then some (.jbool false, rest.drop 4) else none
      else if c = '"' then
        match jsonParseStringAux rest [] with
        | some (s, rest2) => some (.jstr s, rest2)
        | none => none
      else if c = '[' then
        match jsonSkipWs rest with
        | ']' :: rest2 => some (.jarr [], rest2)
        | _ =>
          match jsonParseArrItems fuel rest with
          | some (items, rest2) => some (.jarr items, rest2)
          | none => none
      else if c = Char.ofNat 123 then
        match jsonSkipWs rest with
        | c2 :: rest2 =>
          if c2 = Char.ofNat 125 then some (.jobj [], rest2)
          else
            match jsonParseObjItems fuel rest with
            | some (fields, rest3) => some (.jobj fields, rest3)
            | none => none
        | [] => none
      else
        let neg := c = '-'
        let digits := if neg then rest.takeWhile Char.isDigit else (c :: rest).takeWhile Char.isDigit
        let remainder := if neg then rest.drop digits.length else (c :: rest).drop digits.length
        if digits = [] then none
        else if remainder.headD ' ' = '.' || remainder.headD ' ' = 'e' || remainder.headD ' ' = 'E' then none
        else
          let mag : Int := Int.ofNat (digits.foldl (fun n d => n * 10 + (d.toNat - 48)) 0)
          some (.jnum (if neg then -mag else mag), remainder)

/-- Comma-separated array items up to `]`. -/
def jsonParseArrItems (fuel : Nat) (cs : List Char) : Option (List JVal × List Char) :=
  match fuel with
  | 0 => none
  | fuel + 1 =>
    match jsonParseVal fuel cs with
    | none => none
    | some (v, rest) =>
      match jsonSkipWs rest with
      | ',' :: rest2 =>
        match jsonParseArrItems fuel rest2 with
        | some (items, rest3) => some (v :: items, rest3)
        | none => none
      | ']' :: rest2 => some ([v], rest2)
      | _ => none

/-- Comma-separated `"key": value` fields up to the closing brace. -/
def jsonParseObjItems (fuel : Nat) (cs : List Char) : Option (List (String × JVal) × List Char) :=
  match fuel with
  | 0 => none
  | fuel + 1 =>
    match jsonSkipWs cs with
    | '"' :: rest =>
      match jsonParseStringAux rest [] with
      | none => none
      | some (k, rest2) =>
        match jsonSkipWs rest2 with
        | ':' :: rest3 =>
          match jsonParseVal fuel rest3 with
          | none => none
          | some (v, rest4) =>
            match jsonSkipWs rest4 with
            | ',' :: rest5 =>
              match jsonParseObjItems fuel rest5 with
              | some (fields, rest6) => some ((k, v) :: fields, rest6)
              | none => none
            | c :: rest5 =>
              if c = Char.ofNat 125 then some ([(k, v)], rest5) else none
            | [] => none
        | _ => none
    | _ => none

end

/-- `json.loads` on a whole string (the integer-number subset). -/
def jsonParse (s : String) : Option JVal :=
  match jsonParseVal (s.data.length + 1) s.data with
  | some (v, rest) => if jsonSkipWs rest = [] then some v else none
  | none => none

/-- `AgentRuntime._decode_json_candidate`: strict parse first, then the
first-`\x7b`-to-last-`\x7d` slice. -/
def decode_json_candidate (candidate : String) : Option JVal :=
  let text := pyStrip candidate
  if text = "" then none
  else
    match jsonParse text with
    | some v => some v
    | none =>
      let cs := text.data
      match cs.findIdx? (fun c => c = Char.ofNat 123) with
      | none => none
      | some first =>
        match cs.reverse.findIdx? (fun c => c = Char.ofNat 125) with
        | none => none
        | some revIdx =>
          let last := cs.length - 1 - revIdx
          if first < last then
            jsonParse (String.mk ((cs.drop first).take (last - first + 1)))
          else none

end AgentService

namespace AgentService

/-! ## service.py: the fallback text protocol -/

/-- Occurrences-split on a separator substring (used for fenced ``` blocks). -/
def splitOnSubAux (fuel : Nat) (s sep : List Char) (acc : List Char) :
    List (List Char) :=
  match fuel with
  | 0 => [acc.reverse ++ s]
  | fuel + 1 =>
    match s with
    | [] => [acc.reverse]
    | c :: rest =>
      if sep ≠ [] && sep.isPrefixOf s then
        acc.reverse :: splitOnSubAux fuel (s.drop sep.length) sep []
      else splitOnSubAux fuel rest sep (c :: acc)

def splitOnSub (s sep : String) : List (List Char) :=
  splitOnSubAux s.data.length s.data sep.data []

/-- The fenced-block candidates of `_parse_text_tool_actions`
(`regex \x60\x60\x60(?:json)?\s*(.*?)\x60\x60\x60`): the stripped contents of
each closed fence pair, with an optional leading `json` tag removed. -/
def fencedCandidates (raw : String) : List String :=
  let parts := splitOnSub raw "```"
  let blocks := (parts.enum.filterMap (fun e =>
    if e.1 % 2 = 1 && e.1 + 1 < parts.length then some e.2 else none))
  blocks.filterMap (fun b =>
    let b2 := if "json".data.isPrefixOf (b.map Char.toLower) then b.drop 4 else b
    let item := pyStrip (String.mk b2)
    if item = "" then none else some item)

/-- `action.get(k1) or action.get(k2)` chains. -/
def pyOr (a b : Option JVal) : Option JVal :=
  match a with
  | some x => if pyTruthy x then some x else b
  | none => b

/-- The action lists the JSON strategies of `_parse_text_tool_actions`
recognise in one decoded value. -/
def actionsFromDecoded (decoded : JVal) : Option (List JVal) :=
  match decoded with
  | .jobj _ =>
    match jget decoded "actions" with
    | some (.jarr items) => some (items.filter isJObj)
    | _ =>
      match jget decoded "action" with
      | some (.jobj fields) => some [.jobj fields]
      | _ =>
        if pyTruthy ((jget decoded "tool").getD .jnull) ||
           pyTruthy ((jget decoded "name").getD .jnull) then some [decoded]
        else none
  | .jarr items => some (items.filter isJObj)
  | _ => none

/-- `AgentRuntime._parse_function_calls_from_text`: the `tool(arg=value)`
free-text strategy is abstracted to the empty action list (it needs a Python
`ast` parse; no claim in this development exercises it — every reply under
study decodes by the JSON strategies above). -/
def parseFunctionCallsFromText (_text : String) : List JVal := []

/-- `AgentRuntime._parse_text_tool_actions`. -/
def parse_text_tool_actions (text : String) : List JVal :=
  let raw := pyStrip text
  if raw = "" then []
  else
    let candidates := raw :: fencedCandidates raw
    match candidates.findSome? (fun cand =>
      match decode_json_candidate cand with
      | none => none
      | some decoded => actionsFromDecoded decoded) with
    | some actions => actions
    | none => parseFunctionCallsFromText raw

/-- `AgentRuntime._extract_tool_args`. -/
def extract_tool_args (tool_call : JVal) : List (String × JVal) :=
  let fromFunction :=
    match jget tool_call "function" with
    | some (.jobj fields) => (fields.find? (fun e => e.1 = "arguments")).map (·.2)
    | _ => none
  let raw_args :=
    match fromFunction with
    | some v => some v
    | none => jget tool_call "arguments"
  match raw_args with
  | none => []
  | some (.jobj fields) => fields
  | some (.jstr s) =>
    let text := pyStrip s
    if text = "" then []
    else
      match jsonParse text with
      | some (.jobj fields) => fields
      | _ => []
  | some _ => []

/-- The per-call result dictionary `_execute_tool_call` returns. -/
structure ToolPayload where
  ok : Bool
  name : Option String := none
  error : Option String := none
  result : Option ToolOutcome := none
deriving DecidableEq, Repr

/-- `AgentRuntime._execute_tool_call`: alias the tool name, inject the
defaulted `replace`/`content` arguments, run the workspace tool, and convert
a `WorkspaceToolError` into an error payload (leaving the tree unchanged). -/
def execute_tool_call (fs : Fs) (root : AbsPath) (tool_call : JVal)
    (auto_apply : Bool) : Fs × ToolPayload :=
  let tool_name0 := extract_tool_name tool_call
  if tool_name0 = "" then
    (fs, { ok := false, error := some "tool name is missing" })
  else
    let tool_name := toolNameAlias tool_name0
    let args0 := extract_tool_args tool_call
    let args1 :=
      if tool_name = "replace_in_file" && !argHas args0 "replace" then
        args0 ++ [("replace", .jstr "")]
      else args0
    let args2 :=
      if tool_name = "write_file" && !argHas args1 "content" then
        args1 ++ [("content", .jstr "")]
      else args1
    match execute fs root tool_name args2 auto_apply with
    | .error e => (fs, { ok := false, name := some tool_name, error := some e })
    | .ok (fs2, out) =>
      (fs2, { ok := true, name := some tool_name, result := some out })

/-- `AgentRuntime._extract_changed_path`. -/
def extract_changed_path (payload : ToolPayload) : Option String :=
  if !payload.ok then none
  else
    match payload.result with
    | none => none
    | some result =>
      if result.applied = some false then none
      else if result.changed ≠ some true then none
      else
        match result.path with
        | some p => if pyStrip p = "" then none else some (pyStrip p)
        | none => none

/-- A not-yet-applied file mutation (diff plus reapply arguments); `none`
`apply_args` stands for the `\x7b\x7d` fallback of a missing dictionary. -/
structure PendingChange where
  operation : String
  path : String
  diff : String
  apply_args : Option ApplyArgs
deriving DecidableEq, Repr

/-- `AgentRuntime._extract_pending_change`: only an ok preview payload
(`applied is False`, truthy `changed`) of a mutating tool yields one. -/
def extract_pending_change (payload : ToolPayload) : Option PendingChange :=
  if !payload.ok then none
  else
    let name := pyStrip (payload.name.getD "")
    if !(name = "write_file" || name = "replace_in_file" || name = "delete_file") then none
    else
      match payload.result with
      | none => none
      | some result =>
        if result.applied ≠ some false then none
        else if result.changed ≠ some true then none
        else
          some
            { operation :=
                match result.operation with
                | some op => if op = "" then name else op
                | none => name
              path := pyStrip (result.path.getD "")
              diff := result.diff.getD ""
              apply_args := result.apply_args }

/-- The accumulator of one attempt of the fallback action loop. -/
structure FallbackAttempt where
  fs : Fs
  tool_results : List ToolPayload
  applied_files : List String
  pending_changes : List PendingChange
  has_mutating_actions : Bool
deriving Repr

/-- One action of the fallback loop body in `_fallback_agent_to_message`:
resolve the tool and argument dictionaries, synthesise the `text_tool_<idx>`
call, execute it and collect applied paths and pending changes. -/
def fallbackActionStep (root : AbsPath) (auto_apply : Bool)
    (st : FallbackAttempt) (idxAction : Nat × JVal) : FallbackAttempt :=
  match idxAction.2 with
  | .jobj _ =>
    let action := idxAction.2
    let raw_tool_name := pyStrip (strOrEmpty (pyOr (jget action "tool") (jget action "name")))
    let tool_name := toolNameAlias raw_tool_name
    if tool_name = "" then st
    else
      let hasMut := st.has_mutating_actions || mutatingToolNames.contains tool_name
      let args0 :=
        match jget action "args" with
        | some (.jobj fields) => fields
        | _ =>
          match jget action "arguments" with
          | some (.jobj fields) => fields
          | _ => []
      let args1 :=
        if tool_name = "replace_in_file" && !argHas args0 "replace" then
          args0 ++ [("replace", .jstr "")]
        else args0
      let tool_call : JVal := .jobj
        [("id", .jstr ("text_tool_" ++ toString idxAction.1)),
         ("function", .jobj [("name", .jstr tool_name), ("arguments", .jobj args1)])]
      let step := execute_tool_call st.fs root tool_call auto_apply
      let applied :=
        match extract_changed_path step.2 with
        | some p => if st.applied_files.contains p then st.applied_files
                    else st.applied_files ++ [p]
        | none => st.applied_files
      let pendings :=
        match extract_pending_change step.2 with
        | some pc => st.pending_changes ++ [pc]
        | none => st.pending_changes
      { fs := step.1
        tool_results := st.tool_results ++ [step.2]
        applied_files := applied
        pending_changes := pendings
        has_mutating_actions := hasMut }
  | _ => st

/-- One attempt of the fallback text protocol on a model reply: parse the
actions and execute them in order (`_fallback_agent_to_message`, single loop
iteration).  When the attempt yields an applied file or a pending change the
repair loop breaks at once and its cumulative result equals this attempt's. -/
def fallback_attempt_on_reply (fs : Fs) (root : AbsPath) (assistant_text : String)
    (auto_apply : Bool) : FallbackAttempt :=
  let actions := parse_text_tool_actions assistant_text
  (actions.enum.map (fun e => (e.1 + 1, e.2))).foldl
    (fallbackActionStep root auto_apply)
    { fs := fs, tool_results := [], applied_files := [], pending_changes := [],
      has_mutating_actions := false }

end AgentService

namespace AgentService

/-! ## protocol_runtime.py: tool policy and event mapping -/

/-- The decision dictionaries `_decide_tool_policy` returns. -/
structure ToolPolicyDecision where
  decision : String
  reason : String
  source : String
deriving DecidableEq, Repr

/-- `protocol_runtime._normalize_string_list`: keep the non-blank stripped
`str(item or "")` of each list element; anything but a list is empty. -/
def normalizeStringList (v : Option JVal) : List String :=
  match v with
  | some (.jarr items) =>
    items.filterMap (fun it =>
      let text := pyStrip (strOrEmpty (some it))
      if text = "" then none else some text)
  | _ => []

/-- `str(policy.get(k) or "approve").strip().lower()`, clamped to the two
known decisions. -/
def normalizeDefaultDecision (v : Option JVal) : String :=
  let raw :=
    match v with
    | none => "approve"
    | some x => if pyTruthy x then pyStr x else "approve"
  let d := strLower (pyStrip raw)
  if d = "approve" || d = "deny" then d else "approve"

/-- `AgentProtocolRuntime._decide_tool_policy`: deny-list membership, then the
mutating-tools flag, then a non-empty allow list, then the default decision. -/
def decide_tool_policy (policy : List (String × JVal)) (tool_name : String) :
    ToolPolicyDecision :=
  let clean_name := pyStrip tool_name
  let allow_tools := normalizeStringList (argGet policy "allow_tools")
  let deny_tools := normalizeStringList (argGet policy "deny_tools")
  let deny_mutations :=
    match argGet policy "deny_mutations" with
    | none => false
    | some v => pyTruthy v
  let default_decision := normalizeDefaultDecision (argGet policy "default_decision")
  if deny_tools.contains clean_name then
    { decision := "deny", reason := "tool is in deny_tools policy list",
      source := "policy.deny_tools" }
  else if deny_mutations && mutatingTools.contains clean_name then
    { decision := "deny", reason := "mutating tools are denied by policy",
      source := "policy.deny_mutations" }
  else if !allow_tools.isEmpty && !allow_tools.contains clean_name then
    { decision := "deny", reason := "tool is not listed in allow_tools",
      source := "policy.allow_tools" }
  else if default_decision = "deny" then
    { decision := "deny", reason := "default_decision is deny",
      source := "policy.default_decision" }
  else
    { decision := "approve", reason := "", source := "policy.default" }

/-- The stream-event dictionaries `run_agent_task` emits; absent keys are
`none`.  `policy` exists for fidelity to `_map_runtime_stream_events`, which
reads it: no producer in service.py ever sets it. -/
structure StreamEvent where
  type : String
  ok : Bool := false
  name : Option String := none
  text : String := ""
  path : Option String := none
  error : Option String := none
  policy : Option ToolPolicyDecision := none
deriving DecidableEq, Repr

/-- `AgentRuntime._tool_result_stream_event`: summarise a tool payload; note
no branch attaches a `policy` entry. -/
def tool_result_stream_event (payload : ToolPayload) : StreamEvent :=
  let n1 :=
    match payload.name with
    | none => "tool"
    | some n => if n = "" then "tool" else n
  let name := if pyStrip n1 = "" then "tool" else pyStrip n1
  if !payload.ok then
    let e1 :=
      match payload.error with
      | none => "unknown error"
      | some e => if e = "" then "unknown error" else e
    let error := pyStrip e1
    { type := "tool_result", ok := false, name := some name,
      error := some error, text := name ++ ": ошибка: " ++ error }
  else
    match payload.result with
    | none =>
      { type := "tool_result", ok := true, name := some name,
        text := name ++ ": выполнено" }
    | some result =>
      let path := pyStrip (result.path.getD "")
      let summary0 := if path ≠ "" then name ++ ": " ++ path else name ++ ": выполнено"
      let summary :=
        if result.applied = some false then name ++ ": подготовлены изменения"
        else if result.changed = some false then name ++ ": без изменений"
        else summary0
      { type := "tool_result", ok := true, name := some name,
        path := some path, text := summary }

/-- The phase tag `_map_runtime_stream_events` attaches to a relayed
`run.progress` event. -/
def streamEventPhase (ev : StreamEvent) : String :=
  let event_type := let t := strLower (pyStrip ev.type); if t = "" then "stream" else t
  if event_type = "tool_start" || event_type = "tool_result" then "act"
  else if event_type = "assistant_delta" then "final"
  else if event_type = "reasoning_delta" then "plan"
  else if event_type = "status" then
    let text := strLower ev.text
    if pyContains text "выполняю" then "act"
    else if pyContains text "ответ сформирован" then "final"
    else "plan"
  else "plan"

/-- The policy decision carried by the structured `tool.result` event of
`_map_runtime_stream_events`: a missing or non-dict `policy` entry defaults
to `"approve"`. -/
def mappedPolicyDecision (policy : Option ToolPolicyDecision) : String :=
  let raw :=
    match policy with
    | none => "approve"
    | some p => if p.decision = "" then "approve" else p.decision
  let decision := strLower (pyStrip raw)
  if decision = "approve" || decision = "deny" then decision else "approve"

end AgentService

namespace AgentService

/-! ## The run_agent_task call signature mismatch -/

/-- The parameter names of `AgentRuntime.run_agent_task` (service.py, lines
194-202): `message`, `model_id`, `chat_id`, then keyword-only `auto_apply`
and `stream_callback`; the signature declares no `**kwargs` and no
`tool_policy`. -/
def runAgentTaskParamNames : List String :=
  ["message", "model_id", "chat_id", "auto_apply", "stream_callback"]

/-- The keyword arguments `AgentProtocolRuntime._execute_prompt_run` passes in
its `self._agent_runtime.run_agent_task(...)` call (protocol_runtime.py,
lines 301-309). -/
def executePromptRunCallKwargs : List String :=
  ["message", "model_id", "chat_id", "auto_apply", "stream_callback", "tool_policy"]

/-- A Python call raises `TypeError` when some keyword argument matches no
parameter of the callee. -/
def runAgentTaskCallRaisesTypeError : Bool :=
  executePromptRunCallKwargs.any (fun k => !runAgentTaskParamNames.contains k)

/-- The terminal status `_execute_prompt_run` records for a run whose task
loop — were it entered — would return normally (as in the stub-client
scenario): the surrounding `except Exception` handler marks the run
`"failed"` whenever the `run_agent_task` call itself raises. -/
def promptRunTerminalStatus : String :=
  if runAgentTaskCallRaisesTypeError then "failed" else "completed"

end AgentService

namespace AgentService

/-! ## protocol_runtime.py: the session/run state machine -/

def terminalStatuses : List String :=
  ["completed", "failed", "cancelled", "interrupted"]

def isTerminalStatus (status : String) : Bool :=
  terminalStatuses.contains status

/-- One row of the runtime's run table (the fields the lifecycle claims
need; timestamps other than `completed_at` and the message/flags are carried
verbatim by the source and irrelevant here). -/
structure RunRec where
  run_id : String
  session_id : String
  status : String
  error : Option (List (String × String))
  completed_at : Option String
deriving DecidableEq, Repr

/-- One row of the session table. -/
structure SessionRec where
  session_id : String
  active_run_id : Option String
deriving DecidableEq, Repr

/-- The in-memory state of `AgentProtocolRuntime`. -/
structure PState where
  sessions : List SessionRec
  runs : List RunRec
deriving DecidableEq, Repr

/-- A raised `ProtocolRuntimeError` (code and message). -/
structure ProtoErr where
  code : String
  message : String
deriving DecidableEq, Repr

def findSession (st : PState) (sid : String) : Option SessionRec :=
  st.sessions.find? (fun s => s.session_id = sid)

def findRun (st : PState) (rid : String) : Option RunRec :=
  st.runs.find? (fun r => r.run_id = rid)

/-- `AgentProtocolRuntime._get_active_run`: the run the session points at,
unless the pointer dangles or the run is terminal.  (The source additionally
treats a finished task handle as terminal; in this model a run's task is done
exactly when its status is terminal.  The source's in-place clearing of a
stale pointer is not modelled: on the success path the pointer is immediately
overwritten, and on the error path no clearing happens.) -/
def getActiveRun (st : PState) (s : SessionRec) : Option RunRec :=
  match s.active_run_id with
  | none => none
  | some rid =>
    match findRun st rid with
    | none => none
    | some r => if isTerminalStatus r.status then none else some r

/-- `create_session` (fresh `uuid4` passed in as `sid`). -/
def create_session (st : PState) (sid : String) : PState :=
  { st with sessions := st.sessions ++ [{ session_id := sid, active_run_id := none }] }

/-- `AgentProtocolRuntime.start_prompt` up to scheduling the task: validate
the message and session, enforce the one-active-run rule, then register the
queued run and point the session at it (`rid` stands in for `uuid4()`). -/
def start_prompt (st : PState) (session_id message rid : String) :
    Except ProtoErr (PState × String) :=
  if pyStrip message = "" then .error ⟨"invalid_params", "message is required"⟩
  else if pyStrip session_id = "" then .error ⟨"invalid_params", "session_id is required"⟩
  else
    match findSession st (pyStrip session_id) with
    | none => .error ⟨"not_found", "session not found"⟩
    | some s =>
      match getActiveRun st s with
      | some _ => .error ⟨"run_in_progress", "session already has active run"⟩
      | none =>
        let run : RunRec :=
          { run_id := rid, session_id := s.session_id, status := "queued",
            error := none, completed_at := none }
        .ok
          ({ sessions := st.sessions.map (fun t =>
               if t.session_id = s.session_id then { t with active_run_id := some rid }
               else t)
             runs := st.runs ++ [run] }, rid)

/-- `run.status = "running"` at the top of `_execute_prompt_run`. -/
def markRunRunning (st : PState) (rid : String) : PState :=
  { st with runs := st.runs.map (fun r =>
      if r.run_id = rid then { r with status := "running" } else r) }

/-- The end of `_execute_prompt_run`: record the terminal status and, in the
`finally` block, clear the owning session's pointer when it still points at
this run. -/
def finishRun (st : PState) (rid sid final : String) : PState :=
  { sessions := st.sessions.map (fun s =>
      if s.session_id = sid && s.active_run_id = some rid then
        { s with active_run_id := none }
      else s)
    runs := st.runs.map (fun r =>
      if r.run_id = rid then { r with status := final } else r) }

/-- The error dictionary recorded for an interrupted run. -/
def interruptedErrorRec : List (String × String) :=
  [("type", "Interrupted"), ("message", "Run was interrupted by process restart")]

/-- The per-run normalization of `_load_persisted_state`, acting on the typed
serialization of a run (`PromptRunState.to_dict` carries `run_id`,
`session_id`, `status`, `error` and `completed_at` verbatim): a run persisted
as queued or running reloads as `"interrupted"` with the Interrupted error,
and `completed_at` is backfilled with the reload time for interrupted runs. -/
def reloadRun (now : String) (r : RunRec) : RunRec :=
  let forced := r.status = "queued" || r.status = "running"
  let status2 := if forced then "interrupted" else r.status
  let error2 := if forced then some interruptedErrorRec else r.error
  let completed2 :=
    match r.completed_at with
    | some c => some c
    | none => if status2 = "interrupted" then some now else none
  { r with status := status2, error := error2, completed_at := completed2 }

/-- `_load_persisted_state` on a persisted state: normalize every run, then
clear any session pointer referencing a missing or terminal run.  No task is
created for any loaded run — reload never resumes one. -/
def reloadState (now : String) (st : PState) : PState :=
  let runs := st.runs.map (reloadRun now)
  { sessions := st.sessions.map (fun s =>
      match s.active_run_id with
      | none => s
      | some rid =>
        match runs.find? (fun r => r.run_id = rid) with
        | none => { s with active_run_id := none }
        | some r =>
          if isTerminalStatus r.status then { s with active_run_id := none } else s)
    runs := runs }

/-- The state-changing operations of the protocol runtime.  Fresh-identifier
hypotheses stand in for `uuid4()` collisions being impossible; a run starts
executing only from `"queued"` and finishes only from `"running"`, mirroring
the straight-line status writes of `_execute_prompt_run`. -/
inductive Step : PState → PState → Prop
  | createSession (st : PState) (sid : String)
      (hfresh : ∀ s ∈ st.sessions, s.session_id ≠ sid) :
      Step st (create_session st sid)
  | startPrompt (st st' : PState) (sid msg rid : String)
      (hfresh : ∀ r ∈ st.runs, r.run_id ≠ rid)
      (h : start_prompt st sid msg rid = .ok (st', rid)) : Step st st'
  | runStarted (st : PState) (rid : String) (r : RunRec)
      (hr : findRun st rid = some r) (hq : r.status = "queued") :
      Step st (markRunRunning st rid)
  | runFinished (st : PState) (rid final : String) (r : RunRec)
      (hr : findRun st rid = some r) (hrun : r.status = "running")
      (hfinal : final = "completed" ∨ final = "failed" ∨ final = "cancelled") :
      Step st (finishRun st rid r.session_id final)
  | reload (st : PState) (now : String) : Step st (reloadState now st)

/-- States the runtime can be in, starting from the empty tables. -/
inductive Reachable : PState → Prop
  | init : Reachable ⟨[], []⟩
  | step {st st' : PState} : Reachable st → Step st st' → Reachable st'

/-- The statuses a run record can carry. -/
def runStatusList : List String :=
  ["queued", "running", "completed", "failed", "cancelled", "interrupted"]

/-- The inductive invariant of the runtime tables: identifiers are unique,
every non-terminal run is the one its owning session's active-run pointer
references, and statuses come from the run state machine. -/
def Inv (st : PState) : Prop :=
  (st.sessions.map (fun s => s.session_id)).Nodup ∧
  (st.runs.map (fun r => r.run_id)).Nodup ∧
  (∀ r ∈ st.runs, isTerminalStatus r.status = false →
     ∃ s ∈ st.sessions, s.session_id = r.session_id ∧
       s.active_run_id = some r.run_id) ∧
  (∀ r ∈ st.runs, r.status ∈ runStatusList)

end AgentService

namespace AgentService

/-! ## The tool catalog -/

/-- The six tool names of `WorkspaceTools.tool_definitions()`. -/
def toolCatalogNames : List String :=
  ["list_files", "read_file", "search_in_files", "write_file",
   "replace_in_file", "delete_file"]

/-- A well-formed argument dictionary for each tool whose path argument is
`raw` (the other required arguments filled with innocuous values), used to
probe the containment check. -/
def escapeProbeArgs (name raw : String) : List (String × JVal) :=
  if name = "write_file" then [("path", .jstr raw), ("content", .jstr "x")]
  else if name = "replace_in_file" then
    [("path", .jstr raw), ("find", .jstr "f"), ("replace", .jstr "r")]
  else if name = "search_in_files" then [("query", .jstr "q"), ("path", .jstr raw)]
  else [("path", .jstr raw)]

end AgentService

namespace AgentService

/-! ## Shared helper lemmas -/

/-- Inverting the ok-wrapping match of a read-only or preview branch. -/
theorem match_ok_fs_inv (fs fs' : Fs) (out : ToolOutcome) (X : Except String ToolOutcome)
    (h : (match X with
          | Except.error e => Except.error e
          | Except.ok o => Except.ok (fs, o)) = Except.ok (fs', out)) : fs' = fs := by
  rcases X with e | o <;> simp_all

/-- A preview-mode `execute` that returns `.ok` returns the input tree. -/
theorem preview_execute_ok_fs (fs : Fs) (root : AbsPath) (name : String)
    (args : List (String × JVal)) (fs' : Fs) (out : ToolOutcome)
    (h : execute fs root name args false = .ok (fs', out)) : fs' = fs := by
  unfold execute at h
  repeat' split at h
  all_goals first
    | exact match_ok_fs_inv _ _ _ _ h
    | simp_all

/-! ## C4: preview mode never mutates -/

/-- Claim C4: for every tool name and argument set, executing in preview mode
(`auto_apply = false`) leaves every file of the sandboxed tree unchanged —
nothing is created, modified or deleted; only apply-mode branches of
`execute` return a modified tree. -/
theorem preview_execute_never_mutates (fs : Fs) (root : AbsPath) (name : String)
    (args : List (String × JVal)) :
    executeFsAfter fs root name args false = fs := by
  unfold executeFsAfter
  split
  case h_1 a b h => exact preview_execute_ok_fs fs root name args a b h
  case h_2 => rfl

end AgentService

namespace AgentService

/-! ## C1, C2: the tool_policy wiring bug -/

/-- Claim C1 (code bug): in the stub-client scenario the run cannot complete.
`_execute_prompt_run` passes a `tool_policy` keyword that
`AgentRuntime.run_agent_task` does not declare, so the call raises
`TypeError` inside the `except Exception` handler and `wait_run` reports the
terminal status `"failed"`, never `"completed"` with `tool_steps = 1`. -/
theorem prompt_run_fails_on_tool_policy_kwarg :
    runAgentTaskCallRaisesTypeError = true ∧
    runAgentTaskParamNames.contains "tool_policy" = false ∧
    promptRunTerminalStatus = "failed" ∧
    promptRunTerminalStatus ≠ "completed" := by decide

/-- Claim C2 (code bug): `_decide_tool_policy` itself would deny a
`delete_file` call under `deny_tools = ["delete_file"]`, but the agent task
loop never receives the callback (`run_agent_task` has no `tool_policy`
parameter), `_execute_tool_call` consults no policy — the delete executes and
removes the file — and the `tool.result` event mapped from
`_tool_result_stream_event` (which never attaches a `policy` entry) defaults
to decision `"approve"`, not `"deny"`. -/
theorem deny_tools_policy_not_enforced :
    decide_tool_policy [("deny_tools", .jarr [.jstr "delete_file"])] "delete_file" =
      { decision := "deny", reason := "tool is in deny_tools policy list",
        source := "policy.deny_tools" } ∧
    runAgentTaskParamNames.contains "tool_policy" = false ∧
    (execute_tool_call [(["r", "README.md"], "hello")] ["r"]
        (.jobj [("function", .jobj [("name", .jstr "delete_file"),
          ("arguments", .jobj [("path", .jstr "README.md")])])]) true).1 = [] ∧
    mappedPolicyDecision (tool_result_stream_event
      (execute_tool_call [(["r", "README.md"], "hello")] ["r"]
        (.jobj [("function", .jobj [("name", .jstr "delete_file"),
          ("arguments", .jobj [("path", .jstr "README.md")])])]) true).2).policy =
      "approve" := by
  exact ⟨by decide, by decide, by decide, by decide⟩

/-! ## C9: the fallback write preview scenario -/

/-- Claim C9: parsing the reply
`\x7b"actions":[\x7b"tool":"write_file","args":\x7b"path":"a.py","content":"x"\x7d\x7d]\x7d`
under `auto_apply = false` yields exactly one pending change with operation
`"write_file"`, path `"a.py"` and a non-empty unified diff, and the project
tree is untouched (no file is created). -/
theorem fallback_write_preview_yields_single_pending_change :
    (fallback_attempt_on_reply [] ["r"]
      "\x7b\"actions\":[\x7b\"tool\":\"write_file\",\"args\":\x7b\"path\":\"a.py\",\"content\":\"x\"\x7d\x7d]\x7d"
      false).pending_changes.length = 1 ∧
    ((fallback_attempt_on_reply [] ["r"]
      "\x7b\"actions\":[\x7b\"tool\":\"write_file\",\"args\":\x7b\"path\":\"a.py\",\"content\":\"x\"\x7d\x7d]\x7d"
      false).pending_changes.headD ⟨"", "", "", none⟩).operation = "write_file" ∧
    ((fallback_attempt_on_reply [] ["r"]
      "\x7b\"actions\":[\x7b\"tool\":\"write_file\",\"args\":\x7b\"path\":\"a.py\",\"content\":\"x\"\x7d\x7d]\x7d"
      false).pending_changes.headD ⟨"", "", "", none⟩).path = "a.py" ∧
    ((fallback_attempt_on_reply [] ["r"]
      "\x7b\"actions\":[\x7b\"tool\":\"write_file\",\"args\":\x7b\"path\":\"a.py\",\"content\":\"x\"\x7d\x7d]\x7d"
      false).pending_changes.headD ⟨"", "", "", none⟩).diff ≠ "" ∧
    (fallback_attempt_on_reply [] ["r"]
      "\x7b\"actions\":[\x7b\"tool\":\"write_file\",\"args\":\x7b\"path\":\"a.py\",\"content\":\"x\"\x7d\x7d]\x7d"
      false).fs = [] := by
  refine ⟨by decide, by decide, by decide, by decide, by decide⟩

end AgentService

namespace AgentService

/-! ## C6: the overwrite guard -/

/-- Claim C6: `write_file` on an existing file whose content is non-empty and
differs from the new content fails with the overwrite `WorkspaceToolError`
unless `allow_overwrite` is set (the error leaves the tree untouched, the
call returning no new state), succeeds for any flag when the existing content
is empty or identical, and always succeeds with `allow_overwrite = true`;
`preview_write_file` applies the same guard. -/
theorem write_file_overwrite_guard (fs : Fs) (root : AbsPath) (p c : String)
    (key : AbsPath) (before : String)
    (hres : resolve_path root p = .ok key)
    (hget : fsGet fs key = some before) :
    ((before ≠ "" ∧ before ≠ c) →
       write_file fs root p c false = .error overwriteGuardMsg ∧
       preview_write_file fs root p c false = .error overwriteGuardMsg) ∧
    ((before = "" ∨ before = c) → ∀ allow : Bool,
       (∃ fs2 out, write_file fs root p c allow = .ok (fs2, out)) ∧
       (∃ out, preview_write_file fs root p c allow = .ok out)) ∧
    ((∃ fs2 out, write_file fs root p c true = .ok (fs2, out)) ∧
     (∃ out, preview_write_file fs root p c true = .ok out)) := by
  refine ⟨fun ⟨h1, h2⟩ => ?_, fun h allow => ?_, ?_⟩
  · constructor <;> simp [write_file, preview_write_file, hres, hget, h1, h2]
  · rcases h with h | h <;>
      constructor <;> simp [write_file, preview_write_file, hres, hget, h]
  · constructor <;> simp [write_file, preview_write_file, hres, hget]

/-- Witness for C6 on a concrete tree: the guarded write fails and the
`allow_overwrite = true` variant succeeds. -/
theorem write_file_overwrite_guard_witness :
    write_file [(["r", "f.txt"], "old")] ["r"] "f.txt" "new" false =
      .error overwriteGuardMsg ∧
    (∃ fs2 out, write_file [(["r", "f.txt"], "old")] ["r"] "f.txt" "new" true =
      .ok (fs2, out)) := by
  have h := write_file_overwrite_guard [(["r", "f.txt"], "old")] ["r"] "f.txt" "new"
    ["r", "f.txt"] "old" (by decide) (by decide)
  exact ⟨(h.1 ⟨by decide, by decide⟩).1, h.2.2.1⟩

/-! ## C10: identical-content writes -/

/-- Claim C10: on an existing file whose content already equals the requested
content, apply-mode `write_file` succeeds and reports `changed = true` (so
`_extract_changed_path` counts the path among applied files), while
`preview_write_file` on the same state reports `changed = false` and
`_extract_pending_change` yields no pending change: the two modes disagree on
the changed flag for identical-content writes. -/
theorem identical_content_write_changed_flag_disagreement (fs : Fs)
    (root : AbsPath) (p c : String) (key : AbsPath)
    (hres : resolve_path root p = .ok key)
    (hget : fsGet fs key = some c)
    (hrel : pyStrip (relPosix root key) ≠ "") :
    (write_file fs root p c false = .ok (fsSet fs key c,
       { path := some (relPosix root key), changed := some true,
         applied := some true, operation := some "write_file",
         created := some false, bytes := some (utf8Len c) }) ∧
     extract_changed_path ⟨true, some "write_file", none, some
       { path := some (relPosix root key), changed := some true,
         applied := some true, operation := some "write_file",
         created := some false, bytes := some (utf8Len c) }⟩ =
       some (pyStrip (relPosix root key))) ∧
    (preview_write_file fs root p c false = .ok
       { path := some (relPosix root key), changed := some false,
         applied := some false, operation := some "write_file",
         created := some false, bytes := some (utf8Len c),
         diff := some "",
         apply_args := some (.writeArgs (relPosix root key) c false) } ∧
     extract_pending_change ⟨true, some "write_file", none, some
       { path := some (relPosix root key), changed := some false,
         applied := some false, operation := some "write_file",
         created := some false, bytes := some (utf8Len c),
         diff := some "",
         apply_args := some (.writeArgs (relPosix root key) c false) }⟩ = none) := by
  refine ⟨⟨?_, ?_⟩, ?_, ?_⟩
  · simp [write_file, hres, hget]
  · simp [extract_changed_path, hrel]
  · simp [preview_write_file, hres, hget, build_unified_diff]
  · simp [extract_pending_change]

/-- Witness for C10 on a concrete tree holding `a.py` with content `"x"`. -/
theorem identical_content_write_witness :
    (write_file [(["r", "a.py"], "x")] ["r"] "a.py" "x" false =
       .ok (fsSet [(["r", "a.py"], "x")] ["r", "a.py"] "x",
       { path := some "a.py", changed := some true,
         applied := some true, operation := some "write_file",
         created := some false, bytes := some (utf8Len "x") }) ∧
     extract_changed_path ⟨true, some "write_file", none, some
       { path := some "a.py", changed := some true,
         applied := some true, operation := some "write_file",
         created := some false, bytes := some (utf8Len "x") }⟩ = some "a.py") ∧
    (preview_write_file [(["r", "a.py"], "x")] ["r"] "a.py" "x" false =
       .ok { path := some "a.py", changed := some false,
             applied := some false, operation := some "write_file",
             created := some false, bytes := some (utf8Len "x"),
             diff := some "",
             apply_args := some (.writeArgs "a.py" "x" false) } ∧
     extract_pending_change ⟨true, some "write_file", none, some
       { path := some "a.py", changed := some false,
             applied := some false, operation := some "write_file",
             created := some false, bytes := some (utf8Len "x"),
             diff := some "",
             apply_args := some (.writeArgs "a.py" "x" false) }⟩ = none) := by
  have h := identical_content_write_changed_flag_disagreement
    [(["r", "a.py"], "x")] ["r"] "a.py" "x" ["r", "a.py"]
    (by decide) (by decide) (by decide)
  exact h

end AgentService

namespace AgentService

/-! ## C5: sandbox containment for every tool -/

/-- `str.strip()` is idempotent. -/
theorem pyStrip_idem (s : String) : pyStrip (pyStrip s) = pyStrip s := by
  have core : ∀ l : List Char,
      (List.rdropWhile isPyWs (l.dropWhile isPyWs)).dropWhile isPyWs =
        List.rdropWhile isPyWs (l.dropWhile isPyWs) := by
    intro l
    rw [List.dropWhile_eq_self_iff]
    intro hl
    have hpre := List.rdropWhile_prefix isPyWs (l.dropWhile isPyWs)
    have hlen : 0 < (l.dropWhile isPyWs).length := lt_of_lt_of_le hl hpre.length_le
    have hg0 := hpre.getElem hl
    have hnot := List.dropWhile_get_zero_not isPyWs l hlen
    simp only [List.get_eq_getElem] at hnot ⊢
    rw [hg0]
    exact hnot
  have hrepr : ∀ t : String,
      pyStrip t = String.mk (List.rdropWhile isPyWs (t.data.dropWhile isPyWs)) :=
    fun _ => rfl
  rw [hrepr (pyStrip s), hrepr s]
  have hdata : (String.mk (List.rdropWhile isPyWs (s.data.dropWhile isPyWs))).data =
      List.rdropWhile isPyWs (s.data.dropWhile isPyWs) := rfl
  congr 1
  rw [hdata, core s.data, List.rdropWhile_idempotent]

/-- `_resolve_path` strips its argument, so pre-stripping changes nothing. -/
theorem resolve_path_strip (root : AbsPath) (raw : String) :
    resolve_path root (pyStrip raw) = resolve_path root raw := by
  unfold resolve_path
  rw [pyStrip_idem]

/-- A blank path argument resolves to the project root itself. -/
theorem resolve_path_of_strip_empty (root : AbsPath) (raw : String)
    (hc : pyStrip raw = "") : resolve_path root raw = .ok root := by
  have hdot : joinResolve root "." = root := rfl
  unfold resolve_path
  rw [hc]
  simp [hdot, List.isPrefixOf_iff_prefix]

/-- `str(value or "")` of a string value is that string. -/
theorem strOrEmpty_jstr (s : String) : strOrEmpty (some (.jstr s)) = s := by
  by_cases h : s = "" <;> simp [strOrEmpty, pyTruthy, pyStr, h]

/-- A string-valued required argument resolves to its stripped text. -/
theorem requiredStr_jstr (s fn : String) (h : pyStrip s ≠ "") :
    requiredStr (some (.jstr s)) fn = .ok (pyStrip s) := by
  simp [requiredStr, strOrEmpty_jstr, h]

/-- A string-valued optional argument with a default resolves to its stripped
text when non-blank. -/
theorem asStr_jstr (s d : String) (h : pyStrip s ≠ "") :
    asStr (some (.jstr s)) d = pyStrip s := by
  simp [asStr, pyStr, h]

/-- Claim C5: for every tool in the catalog and in both apply and preview
modes, a path argument that resolves outside the sandbox root makes `execute`
fail with the containment `WorkspaceToolError` before any tool logic runs,
and the tree (inside or outside the root) is untouched. -/
theorem escaping_path_rejected_for_every_tool (fs : Fs) (root : AbsPath)
    (raw : String) (auto_apply : Bool) (name : String)
    (hname : name ∈ toolCatalogNames)
    (hesc : resolve_path root raw = .error "Path escapes project root") :
    execute fs root name (escapeProbeArgs name raw) auto_apply =
      .error "Path escapes project root" ∧
    executeFsAfter fs root name (escapeProbeArgs name raw) auto_apply = fs := by
  have hne : pyStrip raw ≠ "" := by
    intro hc
    rw [resolve_path_of_strip_empty root raw hc] at hesc
    exact Except.noConfusion hesc
  have hstrip : resolve_path root (pyStrip raw) = .error "Path escapes project root" := by
    rw [resolve_path_strip]; exact hesc
  have hreq : ∀ fn, requiredStr (some (.jstr raw)) fn = .ok (pyStrip raw) :=
    fun fn => requiredStr_jstr raw fn hne
  have hast : ∀ d, asStr (some (.jstr raw)) d = pyStrip raw :=
    fun d => asStr_jstr raw d hne
  have hmain : execute fs root name (escapeProbeArgs name raw) auto_apply =
      .error "Path escapes project root" := by
    fin_cases hname
    · cases auto_apply <;>
        simp [execute, escapeProbeArgs, list_files, hast, hstrip, asInt,
          show argGet [("path", JVal.jstr raw)] "path" = some (JVal.jstr raw) from rfl,
          show argGet [("path", JVal.jstr raw)] "glob" = none from rfl,
          show argGet [("path", JVal.jstr raw)] "limit" = none from rfl]
    · cases auto_apply <;>
        simp [execute, escapeProbeArgs, read_file, hreq, hstrip, asInt,
          show argGet [("path", JVal.jstr raw)] "path" = some (JVal.jstr raw) from rfl,
          show argGet [("path", JVal.jstr raw)] "max_chars" = none from rfl]
    · cases auto_apply <;>
        simp [execute, escapeProbeArgs, search_in_files, hast, hstrip, asInt,
          show argGet [("query", JVal.jstr "q"), ("path", JVal.jstr raw)] "query" =
            some (JVal.jstr "q") from rfl,
          show argGet [("query", JVal.jstr "q"), ("path", JVal.jstr raw)] "path" =
            some (JVal.jstr raw) from rfl,
          show argGet [("query", JVal.jstr "q"), ("path", JVal.jstr raw)] "glob" =
            none from rfl,
          show argGet [("query", JVal.jstr "q"), ("path", JVal.jstr raw)] "limit" =
            none from rfl,
          show argGet [("query", JVal.jstr "q"), ("path", JVal.jstr raw)] "ignore_case" =
            none from rfl,
          show requiredStr (some (JVal.jstr "q")) "query" = .ok "q" from rfl]
    · cases auto_apply <;>
        simp [execute, escapeProbeArgs, write_file, preview_write_file, hreq, hstrip,
          show argGet [("path", JVal.jstr raw), ("content", JVal.jstr "x")] "path" =
            some (JVal.jstr raw) from rfl,
          show argGet [("path", JVal.jstr raw), ("content", JVal.jstr "x")] "content" =
            some (JVal.jstr "x") from rfl,
          show argGet [("path", JVal.jstr raw), ("content", JVal.jstr "x")] "allow_overwrite" =
            none from rfl,
          show requiredStr (some (JVal.jstr "x")) "content" = .ok "x" from rfl]
    · cases auto_apply <;>
        simp [execute, escapeProbeArgs, replace_in_file, preview_replace_in_file,
          hreq, hstrip, asInt,
          show argGet [("path", JVal.jstr raw), ("find", JVal.jstr "f"),
            ("replace", JVal.jstr "r")] "path" = some (JVal.jstr raw) from rfl,
          show argGet [("path", JVal.jstr raw), ("find", JVal.jstr "f"),
            ("replace", JVal.jstr "r")] "find" = some (JVal.jstr "f") from rfl,
          show argGet [("path", JVal.jstr raw), ("find", JVal.jstr "f"),
            ("replace", JVal.jstr "r")] "count" = none from rfl,
          show requiredStr (some (JVal.jstr "f")) "find" = .ok "f" from rfl,
          show requiredReplace [("path", JVal.jstr raw), ("find", JVal.jstr "f"),
            ("replace", JVal.jstr "r")] = .ok "r" from rfl]
    · cases auto_apply <;>
        simp [execute, escapeProbeArgs, delete_file, preview_delete_file, hreq, hstrip,
          show argGet [("path", JVal.jstr raw)] "path" = some (JVal.jstr raw) from rfl]
  refine ⟨hmain, ?_⟩
  unfold executeFsAfter
  rw [hmain]

/-- Witness for C5: `"../../etc/passwd"` against each tool in both modes on a
concrete tree. -/
theorem escaping_path_rejected_witness :
    execute [(["r", "a.py"], "x")] ["r"] "delete_file"
        (escapeProbeArgs "delete_file" "../../etc/passwd") true =
      .error "Path escapes project root" ∧
    execute [(["r", "a.py"], "x")] ["r"] "write_file"
        (escapeProbeArgs "write_file" "../../etc/passwd") false =
      .error "Path escapes project root" := by
  constructor
  · exact (escaping_path_rejected_for_every_tool [(["r", "a.py"], "x")] ["r"]
      "../../etc/passwd" true "delete_file" (by decide) (by decide)).1
  · exact (escaping_path_rejected_for_every_tool [(["r", "a.py"], "x")] ["r"]
      "../../etc/passwd" false "write_file" (by decide) (by decide)).1

end AgentService

namespace AgentService

/-! ## C7: path algebra for the apply-args round trip -/

/-- Pieces produced by `splitSlashAux` contain no separator. -/
theorem splitSlashAux_no_slash (cs : List Char) :
    ∀ acc, '/' ∉ acc → ∀ piece ∈ splitSlashAux cs acc, '/' ∉ piece.data := by
  induction cs with
  | nil =>
    intro acc hacc piece hp
    simp only [splitSlashAux, List.mem_singleton] at hp
    subst hp
    simpa using fun h => hacc h
  | cons c rest ih =>
    intro acc hacc piece hp
    by_cases hc : c = '/'
    · subst hc
      have hp' : piece = String.mk acc.reverse ∨ piece ∈ splitSlashAux rest [] := by
        have : splitSlashAux ('/' :: rest) acc =
            String.mk acc.reverse :: splitSlashAux rest [] := by
          rw [splitSlashAux, if_pos rfl]
        rw [this] at hp
        exact List.mem_cons.mp hp
      rcases hp' with hp' | hp'
      · subst hp'; simpa using fun h => hacc h
      · exact ih [] (by simp) piece hp'
    · rw [splitSlashAux, if_neg hc] at hp
      refine ih (c :: acc) ?_ piece hp
      intro h
      rcases List.mem_cons.mp h with h | h
      · exact hc h.symm
      · exact hacc h

/-- Pieces of `splitSlash` contain no `'/'`. -/
theorem splitSlash_no_slash (s : String) :
    ∀ piece ∈ splitSlash s, '/' ∉ piece.data :=
  splitSlashAux_no_slash s.data [] (by simp)

/-- `splitSlashAux` on separator-free input yields the single accumulated
piece. -/
theorem splitSlashAux_of_no_slash (cs : List Char) :
    ∀ acc, '/' ∉ cs → splitSlashAux cs acc = [String.mk (acc.reverse ++ cs)] := by
  induction cs with
  | nil => intro acc _; simp [splitSlashAux]
  | cons c rest ih =>
    intro acc hcs
    have hc : c ≠ '/' := fun h => hcs (h ▸ List.mem_cons_self c rest)
    rw [splitSlashAux, if_neg hc, ih (c :: acc) (fun h => hcs (List.mem_cons_of_mem c h))]
    simp

/-- `splitSlashAux` across one separator. -/
theorem splitSlashAux_append_slash (a : List Char) :
    ∀ acc b, '/' ∉ a →
      splitSlashAux (a ++ '/' :: b) acc =
        String.mk (acc.reverse ++ a) :: splitSlashAux b [] := by
  induction a with
  | nil => intro acc b _; simp [splitSlashAux]
  | cons c rest ih =>
    intro acc b ha
    have hc : c ≠ '/' := fun h => ha (h ▸ List.mem_cons_self c rest)
    rw [List.cons_append, splitSlashAux, if_neg hc,
      ih (c :: acc) b (fun h => ha (List.mem_cons_of_mem c h))]
    simp

/-- Joining separator-free pieces and splitting again round-trips. -/
theorem splitSlash_strJoin (rest : List String) (hne : rest ≠ [])
    (hclean : ∀ x ∈ rest, '/' ∉ x.data) :
    splitSlash (strJoin "/" rest) = rest := by
  induction rest with
  | nil => exact absurd rfl hne
  | cons x xs ih =>
    cases xs with
    | nil =>
      show splitSlash x = [x]
      unfold splitSlash
      rw [splitSlashAux_of_no_slash x.data [] (hclean x (by simp))]
      rfl
    | cons y ys =>
      have hx : '/' ∉ x.data := hclean x (by simp)
      have hdata : (strJoin "/" (x :: y :: ys)).data =
          x.data ++ '/' :: (strJoin "/" (y :: ys)).data := by
        show (x ++ "/" ++ strJoin "/" (y :: ys)).data = _
        simp [String.data_append]
      unfold splitSlash
      rw [hdata, splitSlashAux_append_slash x.data [] (strJoin "/" (y :: ys)).data hx]
      have hxs := ih (by simp) (fun z hz => hclean z (List.mem_cons_of_mem x hz))
      unfold splitSlash at hxs
      rw [hxs]
      rfl

/-- The resolution fold with no `".."` components just appends. -/
theorem joinResolve_fold_append (comps : List String) :
    ∀ start, (∀ c ∈ comps, c ≠ "..") →
      comps.foldl (fun acc c => if c = ".." then acc.dropLast else acc ++ [c]) start =
        start ++ comps := by
  induction comps with
  | nil => intro start _; simp
  | cons c cs ih =>
    intro start hc
    have hne : c ≠ ".." := hc c (by simp)
    simp only [List.foldl_cons, if_neg hne]
    rw [ih (start ++ [c]) (fun d hd => hc d (List.mem_cons_of_mem c hd))]
    simp

/-- Structure of the resolution fold: the result is a prefix of the start
followed by appended components, each a non-`".."` member of the input. -/
theorem joinResolve_fold_structure (comps : List String) :
    ∀ start, ∃ pre tail,
      comps.foldl (fun acc c => if c = ".." then acc.dropLast else acc ++ [c]) start =
        pre ++ tail ∧ pre <+: start ∧ ∀ x ∈ tail, x ∈ comps ∧ x ≠ ".." := by
  induction comps with
  | nil => intro start; exact ⟨start, [], by simp, List.prefix_refl start, by simp⟩
  | cons c cs ih =>
    intro start
    by_cases hc : c = ".."
    · subst hc
      simp only [List.foldl_cons, if_pos rfl]
      rcases ih start.dropLast with ⟨pre, tail, heq, hpre, htail⟩
      refine ⟨pre, tail, heq, hpre.trans (List.dropLast_prefix start), ?_⟩
      exact fun x hx => ⟨List.mem_cons_of_mem _ (htail x hx).1, (htail x hx).2⟩
    · simp only [List.foldl_cons, if_neg hc]
      rcases ih (start ++ [c]) with ⟨pre, tail, heq, hpre, htail⟩
      by_cases hlen : pre.length ≤ start.length
      · refine ⟨pre, tail, heq, ?_, ?_⟩
        · exact List.prefix_of_prefix_length_le hpre (List.prefix_append start [c]) hlen
        · exact fun x hx => ⟨List.mem_cons_of_mem _ (htail x hx).1, (htail x hx).2⟩
      · have hfull : pre = start ++ [c] := by
          have h1 : pre.length = (start ++ [c]).length := by
            have := hpre.length_le
            simp only [List.length_append, List.length_singleton] at this ⊢
            omega
          exact List.IsPrefix.eq_of_length hpre h1
        refine ⟨start, c :: tail, ?_, List.prefix_refl start, ?_⟩
        · rw [heq, hfull]; simp
        · intro x hx
          rcases List.mem_cons.mp hx with hx | hx
          · exact ⟨hx ▸ List.mem_cons_self c cs, hx ▸ hc⟩
          · exact ⟨List.mem_cons_of_mem _ (htail x hx).1, (htail x hx).2⟩

end AgentService

namespace AgentService

/-- Inversion of a successful `_resolve_path`. -/
theorem resolve_path_ok_inv (root : AbsPath) (p : String) (key : AbsPath)
    (h : resolve_path root p = .ok key) :
    root.isPrefixOf key = true ∧
    key = joinResolve root (if pyStrip p = "" then "." else pyStrip p) := by
  unfold resolve_path at h
  dsimp only at h
  by_cases hpre : root.isPrefixOf
      (joinResolve root (if pyStrip p = "" then "." else pyStrip p)) = true
  · rw [if_pos hpre] at h
    have hk := Except.ok.inj h
    exact ⟨hk ▸ hpre, hk.symm⟩
  · rw [if_neg hpre] at h
    exact absurd h (by simp)

/-- Every component after the root in a resolved path came from the filtered
split of the cleaned input: nonempty, not `"."`, not `".."`, separator-free. -/
theorem resolved_rest_clean (root : AbsPath) (p : String) (key : AbsPath)
    (h : resolve_path root p = .ok key) :
    key = root ++ key.drop root.length ∧
    ∀ x ∈ key.drop root.length, x ≠ "" ∧ x ≠ "." ∧ x ≠ ".." ∧ '/' ∉ x.data := by
  rcases resolve_path_ok_inv root p key h with ⟨hpre, hkey⟩
  have hprefix : root <+: key := List.isPrefixOf_iff_prefix.mp hpre
  rcases hprefix with ⟨t, ht⟩
  have hdrop : key.drop root.length = t := by rw [← ht, List.drop_left]
  constructor
  · rw [hdrop, ht]
  · set clean := if pyStrip p = "" then "." else pyStrip p with hclean
    set comps := (splitSlash clean).filter (fun c => c ≠ "" && c ≠ ".") with hcomps
    set start := if strStartsWith clean "/" then [] else root with hstart
    have hkey2 : key = comps.foldl
        (fun acc c => if c = ".." then acc.dropLast else acc ++ [c]) start := hkey
    rcases joinResolve_fold_structure comps start with ⟨pre, tail, heq, hpre2, htail⟩
    have hprelen : pre.length ≤ root.length := by
      have := hpre2.length_le
      by_cases hs : strStartsWith clean "/" = true
      · rw [hstart, if_pos hs] at this
        simpa using le_trans this (Nat.zero_le _)
      · rw [hstart, if_neg hs] at this
        exact this
    have hkey3 : key = pre ++ tail := by rw [hkey2, heq]
    have hrest_sub : ∀ x ∈ key.drop root.length, x ∈ tail := by
      intro x hx
      rw [hkey3] at hx
      rcases Nat.le.dest hprelen with ⟨k, hk⟩
      have : (pre ++ tail).drop root.length = tail.drop k := by
        rw [← hk, List.drop_append]
      rw [this] at hx
      exact List.mem_of_mem_drop hx
    intro x hx
    have hxt := hrest_sub x hx
    rcases htail x hxt with ⟨hxc, hxdd⟩
    rw [hcomps] at hxc
    have hxs := List.mem_filter.mp hxc
    have hflt := hxs.2
    simp only [Bool.and_eq_true, decide_eq_true_eq] at hflt
    exact ⟨hflt.1, hflt.2, hxdd, splitSlash_no_slash clean x hxs.1⟩

end AgentService

namespace AgentService

/-- A nonempty string has a nonempty character list. -/
theorem data_ne_nil_of_ne_empty (x : String) (h : x ≠ "") : x.data ≠ [] := by
  intro hd
  exact h (by cases x with | mk d => cases hd; rfl)

/-- The characters of a joined list start with the first piece. -/
theorem strJoin_data_head (x : String) (xs : List String) :
    ∃ t, (strJoin "/" (x :: xs)).data = x.data ++ t := by
  cases xs with
  | nil => exact ⟨[], by simp [strJoin]⟩
  | cons y ys =>
    refine ⟨'/' :: (strJoin "/" (y :: ys)).data, ?_⟩
    show (x ++ "/" ++ strJoin "/" (y :: ys)).data = _
    simp [String.data_append]

/-- Resolving the bare `"."` path yields the project root. -/
theorem resolve_path_dot (root : AbsPath) : resolve_path root "." = .ok root := by
  show (if List.isPrefixOf root root = true then (Except.ok root : Except String AbsPath)
        else .error "Path escapes project root") = .ok root
  simp [List.isPrefixOf_iff_prefix]

/-- Re-resolving the relative path a successful resolution reports returns the
same key, provided that relative path is strip-invariant. -/
theorem resolve_path_relPosix (root key : AbsPath) (p : String)
    (hres : resolve_path root p = .ok key)
    (hinv : pyStrip (relPosix root key) = relPosix root key) :
    resolve_path root (relPosix root key) = .ok key := by
  rcases resolved_rest_clean root p key hres with ⟨hsplit, hcleanx⟩
  by_cases hre : key.drop root.length = []
  · have hrel : relPosix root key = "." := by
      unfold relPosix; rw [if_pos hre]
    have hkey : key = root := by rw [hsplit, hre, List.append_nil]
    rw [hrel, hkey]
    exact resolve_path_dot root
  · set rest := key.drop root.length with hrestdef
    have hrel : relPosix root key = strJoin "/" rest := by
      unfold relPosix; rw [← hrestdef, if_neg hre]
    obtain ⟨x, xs, hxs⟩ : ∃ x xs, rest = x :: xs := by
      cases hrest : rest with
      | nil => exact absurd hrest hre
      | cons a as => exact ⟨a, as, rfl⟩
    have hx := hcleanx x (by rw [hxs]; exact List.mem_cons_self x xs)
    obtain ⟨hd, htl, hxdata⟩ : ∃ hd tl, x.data = hd :: tl := by
      cases hdx : x.data with
      | nil => exact absurd hdx (data_ne_nil_of_ne_empty x hx.1)
      | cons a as => exact ⟨a, as, rfl⟩
    have hhd : hd ≠ '/' := by
      intro hc
      exact hx.2.2.2 (by rw [hxdata, hc]; exact List.mem_cons_self '/' htl)
    have hjoin_ne : strJoin "/" rest ≠ "" := by
      intro hc
      rcases strJoin_data_head x xs with ⟨t, ht⟩
      rw [hxs] at hc
      have : (strJoin "/" (x :: xs)).data = [] := by rw [hc]
      rw [ht, hxdata] at this
      exact List.noConfusion this
    have hnostart : strStartsWith (strJoin "/" rest) "/" = false := by
      rcases strJoin_data_head x xs with ⟨t, ht⟩
      rw [hxs]
      unfold strStartsWith
      rw [ht, hxdata]
      simp only [List.cons_append]
      rw [Bool.eq_false_iff]
      intro hc
      have hpre := List.isPrefixOf_iff_prefix.mp hc
      have h2 : '/' = hd := by simpa using hpre
      exact hhd h2.symm
    have hsplitjoin : splitSlash (strJoin "/" rest) = rest := by
      refine splitSlash_strJoin rest hre ?_
      intro z hz
      exact (hcleanx z hz).2.2.2
    have hfilter : rest.filter (fun c => c ≠ "" && c ≠ ".") = rest := by
      refine List.filter_eq_self.mpr ?_
      intro z hz
      have hzc := hcleanx z hz
      simp [hzc.1, hzc.2.1]
    have hfold : joinResolve root (strJoin "/" rest) = root ++ rest := by
      unfold joinResolve
      rw [hsplitjoin, hfilter, if_neg (by rw [hnostart]; exact Bool.false_ne_true)]
      refine joinResolve_fold_append rest root ?_
      intro z hz
      exact (hcleanx z hz).2.2.1
    rw [hrel]
    have hstripj : pyStrip (strJoin "/" rest) = strJoin "/" rest := by
      rw [← hrel]; exact hinv
    unfold resolve_path
    rw [hstripj, if_neg hjoin_ne]
    dsimp only
    rw [hfold, if_pos (List.isPrefixOf_iff_prefix.mpr (List.prefix_append root rest))]
    rw [hsplit]

end AgentService

namespace AgentService

/-- Claim C7 counterexample: for the path `"b /"` — a final component with
trailing whitespace, shielded from `str.strip()` by the trailing slash — the
preview succeeds and reports `apply_args` with path `"b "`, but feeding that
back into `write_file` re-strips the path and creates `b`, while the direct
`write_file("b /", "x")` creates `b `: the two runs produce different trees,
so the round trip is not the identical mutation the claim asserts. -/
theorem preview_apply_args_roundtrip_counterexample :
    (preview_write_file [] ["r"] "b /" "x" false = .ok
      { path := some "b ", changed := some true, applied := some false,
        operation := some "write_file", created := some true, bytes := some 1,
        diff := some "--- /dev/null\n+++ b/b \n+x",
        apply_args := some (.writeArgs "b " "x" false) }) ∧
    write_file [] ["r"] "b " "x" false = .ok ([(["r", "b"], "x")],
      { path := some "b", changed := some true, applied := some true,
        operation := some "write_file", created := some true, bytes := some 1 }) ∧
    write_file [] ["r"] "b /" "x" false = .ok ([(["r", "b "], "x")],
      { path := some "b ", changed := some true, applied := some true,
        operation := some "write_file", created := some true, bytes := some 1 }) ∧
    ([(["r", "b"], "x")] : Fs) ≠ [(["r", "b "], "x")] := by
  refine ⟨by decide, by decide, by decide, by decide⟩

/-- Claim C7 (amended): for every path and content for which the preview
succeeds and whose reported relative path is strip-invariant (unchanged by
`str.strip()` — every path without leading/trailing whitespace in its first
and last components), feeding `apply_args` into `write_file` performs the
identical mutation: the same tree and the same result as the direct
`write_file(p, c)` call, hence byte-identical file content. -/
theorem preview_apply_args_roundtrip_strip_invariant (fs : Fs) (root : AbsPath)
    (p c : String) (allow : Bool) (out : ToolOutcome) (p2 c2 : String) (a2 : Bool)
    (hprev : preview_write_file fs root p c allow = .ok out)
    (hargs : out.apply_args = some (.writeArgs p2 c2 a2))
    (hinv : pyStrip p2 = p2) :
    write_file fs root p2 c2 a2 = write_file fs root p c allow ∧
    ∃ fs2 o, write_file fs root p2 c2 a2 = .ok (fs2, o) ∧
      write_file fs root p c allow = .ok (fs2, o) := by
  unfold preview_write_file at hprev
  rcases hresE : resolve_path root p with e | key
  · rw [hresE] at hprev; exact absurd hprev (by simp)
  · rw [hresE] at hprev
    dsimp only at hprev
    split at hprev
    · exact absurd hprev (by simp)
    · rename_i hguard
      have hout := Except.ok.inj hprev
      subst hout
      dsimp only at hargs
      simp only [Option.some.injEq, ApplyArgs.writeArgs.injEq] at hargs
      obtain ⟨h1, h2, h3⟩ := hargs
      subst h1; subst h2; subst h3
      have hres2 : resolve_path root (relPosix root key) = .ok key :=
        resolve_path_relPosix root key p hresE hinv
      constructor
      · unfold write_file
        rw [hres2, hresE]
      · refine ⟨fsSet fs key c,
          { path := some (relPosix root key), changed := some true,
            applied := some true, operation := some "write_file",
            created := some (!(fsGet fs key).isSome),
            bytes := some (utf8Len c) }, ?_, ?_⟩ <;>
          · unfold write_file
            first
              | rw [hres2]
              | rw [hresE]
            dsimp only
            rw [if_neg hguard]
end AgentService

namespace AgentService

/-- Witness for the amended C7 on `p = "./a.py"`, whose preview reports the
strip-invariant relative path `"a.py"`: the reapplied call and the direct
call produce the same tree and result. -/
theorem preview_apply_args_roundtrip_witness :
    write_file [] ["r"] "a.py" "x" false = write_file [] ["r"] "./a.py" "x" false ∧
    ∃ fs2 o, write_file [] ["r"] "a.py" "x" false = .ok (fs2, o) ∧
      write_file [] ["r"] "./a.py" "x" false = .ok (fs2, o) := by
  exact preview_apply_args_roundtrip_strip_invariant [] ["r"] "./a.py" "x" false
    { path := some "a.py", changed := some true, applied := some false,
      operation := some "write_file", created := some true, bytes := some 1,
      diff := some "--- /dev/null\n+++ b/a.py\n+x",
      apply_args := some (.writeArgs "a.py" "x" false) }
    "a.py" "x" false (by decide) (by decide) (by decide)

end AgentService

namespace AgentService

/-! ## C8: reload interrupts unfinished runs -/

/-- Claim C8: on startup reload every persisted run stored as `"queued"` or
`"running"` is assigned the terminal status `"interrupted"` with the
Interrupted error recorded; after reload no run is queued or running (and
reload schedules no task, so nothing is resumed or re-executed), and every
session active-run pointer that survives references an existing non-terminal
run — any pointer to a missing or terminal run has been cleared. -/
theorem reload_interrupts_unfinished_runs (now : String) (st : PState) :
    (∀ r ∈ st.runs, (r.status = "queued" ∨ r.status = "running") →
       (reloadRun now r).status = "interrupted" ∧
       (reloadRun now r).error = some interruptedErrorRec ∧
       isTerminalStatus (reloadRun now r).status = true) ∧
    (∀ r' ∈ (reloadState now st).runs, r'.status ≠ "queued" ∧ r'.status ≠ "running") ∧
    (∀ s ∈ (reloadState now st).sessions, ∀ rid, s.active_run_id = some rid →
       ∃ r ∈ (reloadState now st).runs, r.run_id = rid ∧
         isTerminalStatus r.status = false) := by
  refine ⟨?_, ?_, ?_⟩
  · intro r _ hst
    have hforced : (r.status = "queued" || r.status = "running") = true := by
      rcases hst with h | h <;> simp [h]
    simp [reloadRun, hforced, isTerminalStatus, terminalStatuses]
  · intro r' hr'
    have hm : ∃ r ∈ st.runs, reloadRun now r = r' := by
      simpa using List.mem_map.mp hr'
    obtain ⟨r, _, hrr⟩ := hm
    subst hrr
    by_cases hforced : (r.status = "queued" || r.status = "running") = true
    · simp [reloadRun, hforced]
    · simp only [Bool.or_eq_true, decide_eq_true_eq, not_or] at hforced
      simp [reloadRun, hforced.1, hforced.2]
  · intro s hs rid hrid
    have hm : ∃ s0 ∈ st.sessions,
        (match s0.active_run_id with
         | none => s0
         | some rid0 =>
           match (st.runs.map (reloadRun now)).find? (fun r => r.run_id = rid0) with
           | none => { s0 with active_run_id := none }
           | some r =>
             if isTerminalStatus r.status then { s0 with active_run_id := none }
             else s0) = s := by
      simpa [reloadState] using List.mem_map.mp hs
    obtain ⟨s0, hs0, hmap⟩ := hm
    rcases hact : s0.active_run_id with _ | rid0
    · rw [hact] at hmap
      dsimp only at hmap
      rw [← hmap] at hrid
      rw [hact] at hrid
      exact Option.noConfusion hrid
    · rw [hact] at hmap
      dsimp only at hmap
      rcases hfind : (st.runs.map (reloadRun now)).find? (fun r => r.run_id = rid0)
        with _ | r
      · rw [hfind] at hmap
        dsimp only at hmap
        rw [← hmap] at hrid
        exact Option.noConfusion hrid
      · rw [hfind] at hmap
        dsimp only at hmap
        by_cases hterm : isTerminalStatus r.status = true
        · rw [if_pos hterm] at hmap
          rw [← hmap] at hrid
          exact Option.noConfusion hrid
        · rw [if_neg hterm] at hmap
          rw [← hmap] at hrid
          rw [hact] at hrid
          have hrid0 : rid0 = rid := Option.some.inj hrid
          subst hrid0
          refine ⟨r, ?_, ?_, ?_⟩
          · have := List.mem_of_find?_eq_some hfind
            simpa [reloadState] using this
          · have := List.find?_some hfind
            simpa using this
          · simpa using hterm

end AgentService

namespace AgentService

/-- Witness for C8: a run persisted as `"running"` with a dangling session
pointer reloads as interrupted with the Interrupted error, and the pointer is
cleared. -/
theorem reload_interrupts_witness :
    (reloadRun "t1" ⟨"r1", "s1", "running", none, none⟩).status = "interrupted" ∧
    (reloadRun "t1" ⟨"r1", "s1", "running", none, none⟩).error =
      some interruptedErrorRec ∧
    (reloadState "t1" ⟨[⟨"s1", some "r1"⟩], [⟨"r1", "s1", "running", none, none⟩]⟩).sessions =
      [⟨"s1", none⟩] := by
  have h := reload_interrupts_unfinished_runs "t1"
    ⟨[⟨"s1", some "r1"⟩], [⟨"r1", "s1", "running", none, none⟩]⟩
  exact ⟨(h.1 ⟨"r1", "s1", "running", none, none⟩ (by decide) (Or.inr rfl)).1,
         (h.1 ⟨"r1", "s1", "running", none, none⟩ (by decide) (Or.inr rfl)).2.1,
         by decide⟩

end AgentService

namespace AgentService

/-! ## C3: at most one non-terminal run per session -/

/-- In a list with `Nodup` images, `find?` by image recovers the member. -/
theorem find?_eq_of_nodup_map {α β : Type} [DecidableEq β] (f : α → β)
    (l : List α) (h : (l.map f).Nodup) (a : α) (ha : a ∈ l) :
    l.find? (fun x => f x = f a) = some a := by
  induction l with
  | nil => cases ha
  | cons b t ih =>
    rcases List.mem_cons.mp ha with hab | hat
    · subst hab
      simp [List.find?]
    · have hnd := h
      simp only [List.map_cons, List.nodup_cons] at hnd
      have hne : f b ≠ f a := by
        intro hc
        exact hnd.1 (hc ▸ List.mem_map_of_mem f hat)
      rw [List.find?]
      simp only [hne, decide_eq_true_eq, decide_False]
      exact ih hnd.2 hat

/-- Members of a list with `Nodup` images are determined by their image. -/
theorem eq_of_nodup_map_eq {α β : Type} [DecidableEq β] (f : α → β)
    (l : List α) (h : (l.map f).Nodup) (a b : α) (ha : a ∈ l) (hb : b ∈ l)
    (hab : f a = f b) : a = b := by
  have h1 := find?_eq_of_nodup_map f l h a ha
  have h2 := find?_eq_of_nodup_map f l h b hb
  rw [show (fun x => decide (f x = f a)) = (fun x => decide (f x = f b)) from
    funext fun x => by rw [hab]] at h1
  exact Option.some.inj (h1.symm.trans h2)

/-- Inversion of a successful `start_prompt`. -/
theorem start_prompt_ok_inv (st : PState) (sid msg rid : String) (st' : PState)
    (rid' : String) (h : start_prompt st sid msg rid = .ok (st', rid')) :
    ∃ s, findSession st (pyStrip sid) = some s ∧ getActiveRun st s = none ∧
      st' = { sessions := st.sessions.map (fun t =>
                if t.session_id = s.session_id then { t with active_run_id := some rid }
                else t)
              runs := st.runs ++ [⟨rid, s.session_id, "queued", none, none⟩] } := by
  unfold start_prompt at h
  split at h
  · exact absurd h (by simp)
  · split at h
    · exact absurd h (by simp)
    · rcases hfs : findSession st (pyStrip sid) with _ | s
      · rw [hfs] at h; exact absurd h (by simp)
      · rw [hfs] at h
        dsimp only at h
        rcases hact : getActiveRun st s with _ | r
        · rw [hact] at h
          refine ⟨s, rfl, hact, ?_⟩
          have := Except.ok.inj h
          exact (congrArg Prod.fst this).symm
        · rw [hact] at h
          exact absurd h (by simp)

end AgentService

namespace AgentService

/-- The runtime invariant is preserved by every operation. -/
theorem inv_step {st st' : PState} (hinv : Inv st) (hstep : Step st st') :
    Inv st' := by
  obtain ⟨hsn, hrn, hpoint, hstatus⟩ := hinv
  cases hstep with
  | createSession sid hfresh =>
    refine ⟨?_, hrn, ?_, hstatus⟩
    · simp only [create_session, List.map_append, List.map_cons, List.map_nil]
      rw [List.nodup_append]
      refine ⟨hsn, List.nodup_singleton _, ?_⟩
      intro a ha hb
      simp only [List.mem_singleton] at hb
      subst hb
      rcases List.mem_map.mp ha with ⟨s0, hs0, hsid⟩
      exact hfresh s0 hs0 hsid
    · intro r hr hterm
      rcases hpoint r hr hterm with ⟨s0, hs0, h1, h2⟩
      exact ⟨s0, List.mem_append_left _ hs0, h1, h2⟩
  | startPrompt _ sid msg rid hfresh h =>
    obtain ⟨s, hfs, hact, hst2⟩ := start_prompt_ok_inv st sid msg rid _ rid h
    subst hst2
    have hsmem : s ∈ st.sessions := List.mem_of_find?_eq_some hfs
    have hids : ((st.sessions.map (fun t =>
        if t.session_id = s.session_id then { t with active_run_id := some rid }
        else t)).map (fun u => u.session_id)) =
        st.sessions.map (fun u => u.session_id) := by
      rw [List.map_map]
      apply List.map_congr_left
      intro t _
      by_cases hts : t.session_id = s.session_id <;> simp [hts]
    refine ⟨?_, ?_, ?_, ?_⟩
    · rw [hids]; exact hsn
    · simp only [List.map_append, List.map_cons, List.map_nil]
      rw [List.nodup_append]
      refine ⟨hrn, List.nodup_singleton _, ?_⟩
      intro a ha hb
      simp only [List.mem_singleton] at hb
      subst hb
      rcases List.mem_map.mp ha with ⟨r0, hr0, hrid0⟩
      exact hfresh r0 hr0 hrid0
    · intro r hr hterm
      rcases List.mem_append.mp hr with hrold | hrnew
      · rcases hpoint r hrold hterm with ⟨s0, hs0, hsid0, hptr⟩
        by_cases hss : s0.session_id = s.session_id
        · exfalso
          have hs0s : s0 = s :=
            eq_of_nodup_map_eq (fun t : SessionRec => t.session_id) st.sessions hsn s0 s hs0 hsmem hss
          have hfr : findRun st r.run_id = some r :=
            find?_eq_of_nodup_map (fun x : RunRec => x.run_id) st.runs hrn r hrold
          unfold getActiveRun at hact
          rw [← hs0s, hptr] at hact
          dsimp only at hact
          rw [hfr] at hact
          dsimp only at hact
          rw [if_neg (by rw [hterm]; exact Bool.false_ne_true)] at hact
          exact Option.noConfusion hact
        · exact ⟨s0, List.mem_map.mpr ⟨s0, hs0, by simp [hss]⟩, hsid0, hptr⟩
      · simp only [List.mem_singleton] at hrnew
        subst hrnew
        exact ⟨{ s with active_run_id := some rid },
          List.mem_map.mpr ⟨s, hsmem, by simp⟩, rfl, rfl⟩
    · intro r hr
      rcases List.mem_append.mp hr with hrold | hrnew
      · exact hstatus r hrold
      · simp only [List.mem_singleton] at hrnew
        subst hrnew
        simp [runStatusList]
  | runStarted rid r hr hq =>
    have hrmem : r ∈ st.runs := List.mem_of_find?_eq_some hr
    have hrid : r.run_id = rid := by simpa using List.find?_some hr
    refine ⟨hsn, ?_, ?_, ?_⟩
    · have hids : (markRunRunning st rid).runs.map (fun u => u.run_id) =
          st.runs.map (fun u => u.run_id) := by
        simp only [markRunRunning]
        rw [List.map_map]
        apply List.map_congr_left
        intro t _
        by_cases hts : t.run_id = rid <;> simp [hts]
      rw [hids]; exact hrn
    · intro r' hr' hterm
      rcases List.mem_map.mp hr' with ⟨r0, hr0, hupd⟩
      by_cases hcond : r0.run_id = rid
      · have hr0r : r0 = r :=
          eq_of_nodup_map_eq (fun x : RunRec => x.run_id) st.runs hrn r0 r hr0 hrmem
            (by show r0.run_id = r.run_id; rw [hcond, hrid])
        have hterm0 : isTerminalStatus r0.status = false := by rw [hr0r, hq]; decide
        rcases hpoint r0 hr0 hterm0 with ⟨s0, hs0, h1, h2⟩
        refine ⟨s0, hs0, ?_, ?_⟩
        · rw [← hupd]; simpa [hcond] using h1
        · rw [← hupd]; simpa [hcond] using h2
      · have hr'r0 : r' = r0 := by rw [← hupd]; simp [hcond]
        rw [hr'r0] at hterm ⊢
        exact hpoint r0 hr0 hterm
    · intro r' hr'
      rcases List.mem_map.mp hr' with ⟨r0, hr0, hupd⟩
      by_cases hcond : r0.run_id = rid
      · rw [← hupd]; simp [hcond, runStatusList]
      · rw [← hupd]; simp only [if_neg hcond]; exact hstatus r0 hr0
  | runFinished rid final r hr hrun hfinal =>
    refine ⟨?_, ?_, ?_, ?_⟩
    · have hids : (finishRun st rid r.session_id final).sessions.map
          (fun u => u.session_id) = st.sessions.map (fun u => u.session_id) := by
        simp only [finishRun]
        rw [List.map_map]
        apply List.map_congr_left
        intro t _
        by_cases hts : t.session_id = r.session_id ∧ t.active_run_id = some rid <;> simp [hts]
      rw [hids]; exact hsn
    · have hids : (finishRun st rid r.session_id final).runs.map
          (fun u => u.run_id) = st.runs.map (fun u => u.run_id) := by
        simp only [finishRun]
        rw [List.map_map]
        apply List.map_congr_left
        intro t _
        by_cases hts : t.run_id = rid <;> simp [hts]
      rw [hids]; exact hrn
    · intro r' hr' hterm
      rcases List.mem_map.mp hr' with ⟨r0, hr0, hupd⟩
      by_cases hcond : r0.run_id = rid
      · exfalso
        have hst : r'.status = final := by rw [← hupd]; simp [hcond]
        rcases hfinal with hf | hf | hf <;>
          · rw [hst, hf] at hterm
            exact absurd hterm (by decide)
      · have hr'r0 : r' = r0 := by rw [← hupd]; simp [hcond]
        rw [hr'r0] at hterm ⊢
        rcases hpoint r0 hr0 hterm with ⟨s0, hs0, h1, h2⟩
        have hne : s0.active_run_id ≠ some rid := by
          rw [h2]
          intro hc
          exact hcond (Option.some.inj hc)
        refine ⟨s0, List.mem_map.mpr ⟨s0, hs0, ?_⟩, h1, h2⟩
        simp [hne]
    · intro r' hr'
      rcases List.mem_map.mp hr' with ⟨r0, hr0, hupd⟩
      by_cases hcond : r0.run_id = rid
      · have hst : r'.status = final := by rw [← hupd]; simp [hcond]
        have hm : r' ∈ (finishRun st rid r.session_id final).runs := hr'
        rcases hfinal with hf | hf | hf <;> simp [hst, hf, runStatusList]
      · have hr'r0 : r' = r0 := by rw [← hupd]; simp [hcond]
        rw [hr'r0]
        exact hstatus r0 hr0
  | reload now =>
    refine ⟨?_, ?_, ?_, ?_⟩
    · have hids : (reloadState now st).sessions.map (fun u => u.session_id) =
          st.sessions.map (fun u => u.session_id) := by
        simp only [reloadState]
        rw [List.map_map]
        apply List.map_congr_left
        intro s0 _
        rcases hval : s0.active_run_id with _ | rid0
        · simp only [Function.comp_apply, hval]
        · simp only [Function.comp_apply, hval]
          rcases hf : (st.runs.map (reloadRun now)).find? (fun r => r.run_id = rid0)
            with _ | rr
          · simp only [hf]
          · simp only [hf]
            by_cases hterm : isTerminalStatus rr.status = true
            · rw [if_pos hterm]
            · rw [if_neg hterm]
      rw [hids]; exact hsn
    · have hids : (reloadState now st).runs.map (fun u => u.run_id) =
          st.runs.map (fun u => u.run_id) := by
        simp only [reloadState]
        rw [List.map_map]
        apply List.map_congr_left
        intro r0 _
        rfl
      rw [hids]; exact hrn
    · intro r' hr' hterm
      exfalso
      rcases List.mem_map.mp hr' with ⟨r0, hr0, hupd⟩
      have hst0 := hstatus r0 hr0
      by_cases hforced : (r0.status = "queued" || r0.status = "running") = true
      · have hst : r'.status = "interrupted" := by rw [← hupd]; simp [reloadRun, hforced]
        rw [hst] at hterm
        exact absurd hterm (by decide)
      · have hsame : r'.status = r0.status := by rw [← hupd]; simp [reloadRun, hforced]
        simp only [Bool.or_eq_true, decide_eq_true_eq, not_or] at hforced
        rw [hsame] at hterm
        simp only [runStatusList, List.mem_cons, List.not_mem_nil, or_false] at hst0
        rcases hst0 with hc | hc | hc | hc | hc | hc
        · exact hforced.1 hc
        · exact hforced.2 hc
        all_goals rw [hc] at hterm
        all_goals exact absurd hterm (by decide)
    · intro r' hr'
      rcases List.mem_map.mp hr' with ⟨r0, hr0, hupd⟩
      by_cases hforced : (r0.status = "queued" || r0.status = "running") = true
      · have hst : r'.status = "interrupted" := by rw [← hupd]; simp [reloadRun, hforced]
        simp [hst, runStatusList]
      · have hsame : r'.status = r0.status := by rw [← hupd]; simp [reloadRun, hforced]
        rw [hsame]
        exact hstatus r0 hr0

/-- Every reachable runtime state satisfies the invariant. -/
theorem inv_reachable {st : PState} (h : Reachable st) : Inv st := by
  induction h with
  | init => exact ⟨by simp, by simp, by simp, by simp⟩
  | step _ hs ih => exact inv_step ih hs

/-- C3: at every reachable runtime state a session owns at most one
non-terminal run (any two non-terminal runs with the same owning session are
the same run), and a second `start_prompt` against a session whose active run
is still non-terminal fails with the `run_in_progress` protocol error, so no
new run is registered. -/
theorem session_has_at_most_one_active_run (st : PState) (h : Reachable st) :
    (∀ r1 ∈ st.runs, ∀ r2 ∈ st.runs,
        isTerminalStatus r1.status = false → isTerminalStatus r2.status = false →
        r1.session_id = r2.session_id → r1 = r2) ∧
    (∀ s ∈ st.sessions, ∀ r ∈ st.runs, ∀ message sid rid2 : String,
        pyStrip message ≠ "" → pyStrip sid = s.session_id → s.session_id ≠ "" →
        s.active_run_id = some r.run_id → isTerminalStatus r.status = false →
        start_prompt st sid message rid2 =
          .error ⟨"run_in_progress", "session already has active run"⟩) := by
  obtain ⟨hsn, hrn, hpoint, _⟩ := inv_reachable h
  constructor
  · intro r1 h1 r2 h2 ht1 ht2 hss
    rcases hpoint r1 h1 ht1 with ⟨s1, hs1, hid1, hact1⟩
    rcases hpoint r2 h2 ht2 with ⟨s2, hs2, hid2, hact2⟩
    have hs12 : s1 = s2 :=
      eq_of_nodup_map_eq (fun t : SessionRec => t.session_id) st.sessions hsn s1 s2 hs1 hs2
        (by show s1.session_id = s2.session_id; rw [hid1, hid2, hss])
    have hr12 : r1.run_id = r2.run_id := by
      rw [hs12, hact2] at hact1
      exact (Option.some.inj hact1).symm
    exact eq_of_nodup_map_eq (fun x : RunRec => x.run_id) st.runs hrn r1 r2 h1 h2 hr12
  · intro s hs r hr message sid rid2 hmsg hsid hne hact hterm
    have hfs : findSession st (pyStrip sid) = some s := by
      rw [hsid]
      exact find?_eq_of_nodup_map (fun t : SessionRec => t.session_id) st.sessions hsn s hs
    have hfr : findRun st r.run_id = some r :=
      find?_eq_of_nodup_map (fun x : RunRec => x.run_id) st.runs hrn r hr
    have hga : getActiveRun st s = some r := by
      unfold getActiveRun
      rw [hact]
      dsimp only
      rw [hfr]
      dsimp only
      rw [if_neg (by simp [hterm])]
    have hsid0 : pyStrip sid ≠ "" := by rw [hsid]; exact hne
    unfold start_prompt
    rw [if_neg hmsg, if_neg hsid0, hfs]
    dsimp only
    rw [hga]

/-- C3 witness: from the empty state, creating session `s1` and starting one
prompt yields a reachable state with a queued run; a second `start_prompt` on
`s1` fails with `run_in_progress`. -/
theorem session_has_at_most_one_active_run_witness :
    start_prompt ⟨[⟨"s1", some "r1"⟩], [⟨"r1", "s1", "queued", none, none⟩]⟩
        "s1" "again" "r2" =
      .error ⟨"run_in_progress", "session already has active run"⟩ := by
  have h0 : Reachable (⟨[], []⟩ : PState) := Reachable.init
  have h1 : Reachable (create_session ⟨[], []⟩ "s1") :=
    Reachable.step h0 (Step.createSession ⟨[], []⟩ "s1"
      (by intro s hs; simp [create_session] at hs))
  have h2 : Reachable ⟨[⟨"s1", some "r1"⟩], [⟨"r1", "s1", "queued", none, none⟩]⟩ :=
    Reachable.step h1 (Step.startPrompt (create_session ⟨[], []⟩ "s1")
      ⟨[⟨"s1", some "r1"⟩], [⟨"r1", "s1", "queued", none, none⟩]⟩ "s1" "hello" "r1"
      (by intro r hr; simp [create_session] at hr) (by decide))
  exact (session_has_at_most_one_active_run _ h2).2
    ⟨"s1", some "r1"⟩ (by decide) ⟨"r1", "s1", "queued", none, none⟩ (by decide)
    "again" "s1" "r2" (by decide) (by decide) (by decide) rfl (by decide)

end AgentService
